import Mathlib

/-!
Shallow embedding of the collision-detection and movement-resolution engine of
src/client/world/CollisionSystem.js (the WorldofVibecraft repository), together
with theorems settling the frozen claims about it.

Modelling conventions:
* JavaScript numbers are idealised as real numbers `ℝ`.
* The two places where the source uses the IEEE `Infinity` sentinel are made
  explicit: the closest-point accumulator of testCircleVsTriangle uses an
  `Option` (with `none` standing for the initial `minDistSq = Infinity`), and a
  push-out depth is a `WithTop ℝ` (with `⊤` standing for an `Infinity` depth,
  which the source can actually produce for a fully degenerate triangle).
  `getCollisionHeightAt` returns `WithBot ℝ`, `⊥` standing for `-Infinity`.
* A `resolveMovement` result of `none` stands for a NaN position: the only way
  the source produces NaN coordinates is pushing along the zero normal of an
  `Infinity`-depth hit (0 * Infinity = NaN); once the position is NaN every
  later narrow-phase comparison is false, no further push happens, and the NaN
  position is returned, which the embedding models by short-circuiting.
* The module-level mutable registry and spatial grid are passed around as an
  explicit `CollisionState`; the grid `Map` is a total function from keys to
  index lists, `[]` standing for an absent entry (the source treats a missing
  entry exactly like an empty list).
-/

namespace WoV

noncomputable section

/-! ### Constants (src/shared/constants.js and CollisionSystem.js) -/

def PLAYER_RADIUS : ℝ := 0.4

def PLAYER_HEIGHT : ℝ := 1.8

def CELL_SIZE : ℝ := 16

def MAX_SLIDE_ITERATIONS : ℕ := 3

def PUSH_EPSILON : ℝ := 0.001

def MIN_WALKABLE_NORMAL_Y : ℝ := 0.574

def MIN_WALKABLE_NORMAL_Y_SQ : ℝ := MIN_WALKABLE_NORMAL_Y * MIN_WALKABLE_NORMAL_Y

/-! ### Data model -/

/-- One XZ collision triangle: the source stores six floats per triangle
(ax, az, bx, bz, cx, cz) in a flat array with stride 6. -/
structure Tri2 where
  ax : ℝ
  az : ℝ
  bx : ℝ
  bz : ℝ
  cx : ℝ
  cz : ℝ

/-- One full 3D triangle of the optional tris3D array: nine floats per
triangle with stride 9, vertex order A (p1), B (p2), C (p3). -/
structure Tri3 where
  p1x : ℝ
  p1y : ℝ
  p1z : ℝ
  p2x : ℝ
  p2y : ℝ
  p2z : ℝ
  p3x : ℝ
  p3y : ℝ
  p3z : ℝ

/-- The tagged union of collider records pushed onto the registry by the four
registration functions (type tags COLLIDER_AABB = 0, COLLIDER_CYLINDER = 1,
COLLIDER_OBB = 2, COLLIDER_TRIMESH = 3). -/
inductive Collider where
  | aabb (minX minZ maxX maxZ minY maxY : ℝ)
  | cylinder (cx cz radius minY maxY : ℝ)
  | obb (cx cz halfW halfD cosA sinA minY maxY : ℝ)
  | trimesh (tris : List Tri2) (minY maxY : ℝ) (tris3D : Option (List Tri3))

/-- The `minY` field every collider record carries. -/
def Collider.minY : Collider → ℝ
  | .aabb _ _ _ _ y _ => y
  | .cylinder _ _ _ y _ => y
  | .obb _ _ _ _ _ _ y _ => y
  | .trimesh _ y _ _ => y

/-- The `maxY` field every collider record carries. -/
def Collider.maxY : Collider → ℝ
  | .aabb _ _ _ _ _ y => y
  | .cylinder _ _ _ _ y => y
  | .obb _ _ _ _ _ _ _ y => y
  | .trimesh _ _ y _ => y

/-- A narrow-phase push-out result { nx, nz, depth }.  The depth lives in
`WithTop ℝ` because testCircleVsTriangle can produce an `Infinity` depth. -/
structure Hit where
  nx : ℝ
  nz : ℝ
  depth : WithTop ℝ

/-- Module state: the collider registry array and the spatial hash grid. -/
structure CollisionState where
  colliders : List Collider
  spatialGrid : ℤ → List ℕ

def CollisionState.empty : CollisionState :=
  { colliders := [], spatialGrid := fun _ => [] }

/-! ### Spatial hash helpers -/

/-- 32-bit wrap of an integer, i.e. JavaScript ToUint32 giving the bit
pattern of the 32-bit value. -/
def toUint32 (n : ℤ) : ℕ := (n % 2 ^ 32).toNat

/-- JavaScript ToInt32: interpret the low 32 bits as a signed value. -/
def toInt32 (n : ℤ) : ℤ :=
  let m := n % 2 ^ 32
  if m < 2 ^ 31 then m else m - 2 ^ 32

/-- cellKey(cx, cz) = ((cx + 0x8000) << 16) | (cz + 0x8000), with the <<16 and
the bitwise-or performed on 32-bit integers as in JavaScript. -/
def cellKey (cx cz : ℤ) : ℤ :=
  toInt32 ((toUint32 ((cx + 0x8000) * 2 ^ 16)).lor (toUint32 (cz + 0x8000)) : ℕ)

/-- The inclusive integer range [lo, hi] as a list ([] when hi < lo). -/
def intRange (lo hi : ℤ) : List ℤ :=
  (List.range (hi + 1 - lo).toNat).map fun (n : ℕ) => lo + (n : ℤ)

/-- The grid-cell indices covered by the coordinate interval [lo, hi]:
floor(lo / CELL_SIZE) .. floor(hi / CELL_SIZE). -/
def cellRange (lo hi : ℝ) : List ℤ :=
  intRange ⌊lo / CELL_SIZE⌋ ⌊hi / CELL_SIZE⌋

/-- insertIntoGrid(index, minX, minZ, maxX, maxZ): push `index` onto the list
of every cell the rectangle overlaps. -/
def insertIntoGrid (g : ℤ → List ℕ) (index : ℕ) (minX minZ maxX maxZ : ℝ) :
    ℤ → List ℕ :=
  (cellRange minX maxX).foldl
    (fun g cx =>
      (cellRange minZ maxZ).foldl
        (fun g cz => Function.update g (cellKey cx cz) (g (cellKey cx cz) ++ [index]))
        g)
    g

/-- The seen-set step of queryGrid: append idx unless already collected. -/
def addUnique (acc : List ℕ) (idx : ℕ) : List ℕ :=
  if idx ∈ acc then acc else acc ++ [idx]

/-- queryGrid(minX, minZ, maxX, maxZ): collect, de-duplicated, the index lists
of every cell the query rectangle overlaps. -/
def queryGrid (g : ℤ → List ℕ) (minX minZ maxX maxZ : ℝ) : List ℕ :=
  (cellRange minX maxX).foldl
    (fun res cx =>
      (cellRange minZ maxZ).foldl
        (fun res cz => (g (cellKey cx cz)).foldl addUnique res)
        res)
    []

/-! ### Collider registration -/

def addCylinderCollider (s : CollisionState) (cx cz radius minY maxY : ℝ) :
    CollisionState :=
  let index := s.colliders.length
  { colliders := s.colliders ++ [.cylinder cx cz radius minY maxY]
    spatialGrid :=
      insertIntoGrid s.spatialGrid index (cx - radius) (cz - radius) (cx + radius) (cz + radius) }

def addAABBCollider (s : CollisionState) (minX minZ maxX maxZ minY maxY : ℝ) :
    CollisionState :=
  let index := s.colliders.length
  { colliders := s.colliders ++ [.aabb minX minZ maxX maxZ minY maxY]
    spatialGrid := insertIntoGrid s.spatialGrid index minX minZ maxX maxZ }

def addOBBCollider (s : CollisionState) (cx cz halfW halfD cosA sinA minY maxY : ℝ) :
    CollisionState :=
  let index := s.colliders.length
  -- World-space AABB of the rotated box for spatial grid insertion
  let extentX := |halfW * cosA| + |halfD * sinA|
  let extentZ := |halfW * sinA| + |halfD * cosA|
  { colliders := s.colliders ++ [.obb cx cz halfW halfD cosA sinA minY maxY]
    spatialGrid :=
      insertIntoGrid s.spatialGrid index (cx - extentX) (cz - extentZ) (cx + extentX) (cz + extentZ) }

/-- addTrimeshCollider computes an XZ AABB from the triangle vertices.  For an
empty triangle list the source's bounds stay at ±Infinity and the cell loop of
insertIntoGrid runs zero times, so nothing is inserted. -/
def addTrimeshCollider (s : CollisionState) (tris : List Tri2) (minY maxY : ℝ)
    (tris3D : Option (List Tri3)) : CollisionState :=
  let colliders' := s.colliders ++ [.trimesh tris minY maxY tris3D]
  match tris with
  | [] => { colliders := colliders', spatialGrid := s.spatialGrid }
  | t :: rest =>
    let xs := (t :: rest).flatMap fun tr => [tr.ax, tr.bx, tr.cx]
    let zs := (t :: rest).flatMap fun tr => [tr.az, tr.bz, tr.cz]
    { colliders := colliders'
      spatialGrid :=
        insertIntoGrid s.spatialGrid s.colliders.length
          (xs.foldl min t.ax) (zs.foldl min t.az) (xs.foldl max t.ax) (zs.foldl max t.az) }

/-! ### Narrow-phase tests -/

def testCylinderVsAABB (px pz pRadius minX minZ maxX maxZ : ℝ) : Option Hit :=
  -- Closest point on AABB to player center
  let clampedX := max minX (min px maxX)
  let clampedZ := max minZ (min pz maxZ)
  let dx := px - clampedX
  let dz := pz - clampedZ
  let distSq := dx * dx + dz * dz
  if distSq ≥ pRadius * pRadius then none
  else if distSq < 1e-8 then
    -- Player center is inside the AABB: push out toward nearest edge
    let dLeft := px - minX
    let dRight := maxX - px
    let dBack := pz - minZ
    let dFront := maxZ - pz
    let minDist := min (min (min dLeft dRight) dBack) dFront
    if minDist = dLeft then some ⟨-1, 0, ↑(pRadius + dLeft)⟩
    else if minDist = dRight then some ⟨1, 0, ↑(pRadius + dRight)⟩
    else if minDist = dBack then some ⟨0, -1, ↑(pRadius + dBack)⟩
    else some ⟨0, 1, ↑(pRadius + dFront)⟩
  else
    let dist := Real.sqrt distSq
    some ⟨dx / dist, dz / dist, ↑(pRadius - dist)⟩

def testCylinderVsCylinder (px pz pRadius cx cz cRadius : ℝ) : Option Hit :=
  let dx := px - cx
  let dz := pz - cz
  let distSq := dx * dx + dz * dz
  let sumR := pRadius + cRadius
  if distSq ≥ sumR * sumR then none
  else if distSq < 1e-8 then
    -- Exact overlap: push in +X arbitrarily
    some ⟨1, 0, ↑sumR⟩
  else
    let dist := Real.sqrt distSq
    some ⟨dx / dist, dz / dist, ↑(sumR - dist)⟩

def testCylinderVsOBB (px pz pRadius obbCx obbCz halfW halfD cosA sinA : ℝ) :
    Option Hit :=
  -- Transform player position into the OBB's local (unrotated) space
  let dx := px - obbCx
  let dz := pz - obbCz
  let localX := cosA * dx - sinA * dz
  let localZ := sinA * dx + cosA * dz
  -- Reuse the standard AABB test in local space (box centered at origin)
  match testCylinderVsAABB localX localZ pRadius (-halfW) (-halfD) halfW halfD with
  | none => none
  | some hit =>
    -- Rotate the push-out normal back to world space
    some ⟨cosA * hit.nx + sinA * hit.nz, -sinA * hit.nx + cosA * hit.nz, hit.depth⟩

/-- One edge step of testCircleVsTriangle's closest-point scan.  The
accumulator is (minDistSq, closestX, closestZ); `none` models the initial
JavaScript state minDistSq = Infinity (with closest = vertex A, which is
overwritten by any surviving edge since every finite dSq < Infinity). -/
def edgeClosest (px pz x1 z1 x2 z2 : ℝ) (acc : Option (ℝ × ℝ × ℝ)) :
    Option (ℝ × ℝ × ℝ) :=
  let ex := x2 - x1
  let ez := z2 - z1
  let len := ex * ex + ez * ez
  if len > 1e-10 then
    let t0 := ((px - x1) * ex + (pz - z1) * ez) / len
    let t := if t0 < 0 then 0 else if t0 > 1 then 1 else t0
    let cpx := x1 + t * ex
    let cpz := z1 + t * ez
    let dSq := (px - cpx) * (px - cpx) + (pz - cpz) * (pz - cpz)
    match acc with
    | none => some (dSq, cpx, cpz)
    | some (m, _, _) => if dSq < m then some (dSq, cpx, cpz) else acc
  else acc

def testCircleVsTriangle (px pz radius ax az bx bz cx cz : ℝ) : Option Hit :=
  -- Closest point on the three edges AB, BC, CA
  let acc :=
    edgeClosest px pz cx cz ax az
      (edgeClosest px pz bx bz cx cz (edgeClosest px pz ax az bx bz none))
  -- Cross product winding test: is the center inside the triangle?
  let d1 := (bx - ax) * (pz - az) - (bz - az) * (px - ax)
  let d2 := (cx - bx) * (pz - bz) - (cz - bz) * (px - bx)
  let d3 := (ax - cx) * (pz - cz) - (az - cz) * (px - cx)
  if (d1 ≥ 0 ∧ d2 ≥ 0 ∧ d3 ≥ 0) ∨ (d1 ≤ 0 ∧ d2 ≤ 0 ∧ d3 ≤ 0) then
    -- Center inside: push out to nearest edge, depth = radius + dist
    match acc with
    | none =>
      -- All three edges failed the length guard, so minDistSq is still
      -- Infinity: dist = sqrt(Infinity) = Infinity is not < 1e-8, the normal
      -- components (closest - p) / Infinity evaluate to 0, and the depth
      -- radius + Infinity is Infinity.
      some ⟨0, 0, ⊤⟩
    | some (minDistSq, closestX, closestZ) =>
      let dist := Real.sqrt minDistSq
      if dist < 1e-8 then some ⟨1, 0, ↑radius⟩
      else some ⟨(closestX - px) / dist, (closestZ - pz) / dist, ↑(radius + dist)⟩
  else
    -- Center outside: collide only if the boundary is within radius
    -- (an Infinity minDistSq fails the < radius² comparison, hence none)
    match acc with
    | none => none
    | some (minDistSq, closestX, closestZ) =>
      if minDistSq ≥ radius * radius then none
      else
        let dist := Real.sqrt minDistSq
        if dist < 1e-8 then some ⟨1, 0, ↑radius⟩
        else some ⟨(px - closestX) / dist, (pz - closestZ) / dist, ↑(radius - dist)⟩

/-- The squared length of a 3D triangle's cross-product surface normal
(e1 × e2 with e1 = B - A, e2 = C - A). -/
def triNormalLenSq (tri : Tri3) : ℝ :=
  let e1x := tri.p2x - tri.p1x
  let e1y := tri.p2y - tri.p1y
  let e1z := tri.p2z - tri.p1z
  let e2x := tri.p3x - tri.p1x
  let e2y := tri.p3y - tri.p1y
  let e2z := tri.p3z - tri.p1z
  (e1y * e2z - e1z * e2y) ^ 2 + (e1z * e2x - e1x * e2z) ^ 2 + (e1x * e2y - e1y * e2x) ^ 2

/-- The squared Y component of that (unnormalised) surface normal. -/
def triNormalYSq (tri : Tri3) : ℝ :=
  let e1x := tri.p2x - tri.p1x
  let e1z := tri.p2z - tri.p1z
  let e2x := tri.p3x - tri.p1x
  let e2z := tri.p3z - tri.p1z
  (e1z * e2x - e1x * e2z) * (e1z * e2x - e1x * e2z)

/-- The walkable-floor condition of testCylinderVsTrimesh: a non-degenerate
triangle whose unit normal's squared Y component reaches the walkable slope
threshold. -/
def triWalkable (tri : Tri3) : Prop :=
  triNormalLenSq tri > 1e-10 ∧ triNormalYSq tri / triNormalLenSq tri ≥ MIN_WALKABLE_NORMAL_Y_SQ

/-- The walkable-floor skip test of testCylinderVsTrimesh for triangle t.
When the index is out of range the source reads undefined, every arithmetic
result is NaN, and the guard comparison fails, so the triangle is not
skipped. -/
def walkableSkip (tris3D : Option (List Tri3)) (t : ℕ) : Prop :=
  match tris3D with
  | none => False
  | some l =>
    match l.get? t with
    | none => False
    | some tri => triWalkable tri

instance (tris3D : Option (List Tri3)) (t : ℕ) : Decidable (walkableSkip tris3D t) :=
  Classical.dec _

/-- The deepest-hit fold step shared by testCylinderVsTrimesh: keep the new
hit only when strictly deeper than the current deepest (depth 0 when none). -/
def keepDeeper (acc : Option Hit) (hit : Hit) : Option Hit :=
  match acc with
  | none => if hit.depth > 0 then some hit else acc
  | some h0 => if hit.depth > h0.depth then some hit else acc

def testCylinderVsTrimesh (px pz pRadius : ℝ) (tris : List Tri2)
    (tris3D : Option (List Tri3)) : Option Hit :=
  tris.enum.foldl
    (fun acc it =>
      -- Skip walkable (floor) triangles: they handle vertical collision only
      if walkableSkip tris3D it.1 then acc
      else
        match testCircleVsTriangle px pz pRadius it.2.ax it.2.az it.2.bx it.2.bz it.2.cx it.2.cz with
        | none => acc
        | some hit => keepDeeper acc hit)
    none

/-! ### Movement resolution -/

/-- Dispatch of the narrow-phase test on the collider's type tag, at the
player radius used by resolveMovement. -/
def colliderTest (c : Collider) (px pz : ℝ) : Option Hit :=
  match c with
  | .aabb minX minZ maxX maxZ _ _ => testCylinderVsAABB px pz PLAYER_RADIUS minX minZ maxX maxZ
  | .obb cx cz halfW halfD cosA sinA _ _ =>
    testCylinderVsOBB px pz PLAYER_RADIUS cx cz halfW halfD cosA sinA
  | .trimesh tris _ _ tris3D => testCylinderVsTrimesh px pz PLAYER_RADIUS tris tris3D
  | .cylinder cx cz radius _ _ => testCylinderVsCylinder px pz PLAYER_RADIUS cx cz radius

/-- The candidate loop of one sliding iteration: vertical-overlap filter, then
narrow phase, keeping the single deepest hit (deepestDepth starts at 0).
An index missing from the registry is skipped; such an index never occurs in
states built by the registration API (claim C10). -/
def findDeepest (colls : List Collider) (cands : List ℕ)
    (posX posZ playerMinY playerMaxY onTopEps : ℝ) : Option Hit :=
  cands.foldl
    (fun acc i =>
      match colls.get? i with
      | none => acc
      | some c =>
        -- Vertical overlap check (with tolerance for standing on top)
        if playerMaxY ≤ c.minY ∨ playerMinY ≥ c.maxY - onTopEps then acc
        else
          match colliderTest c posX posZ with
          | none => acc
          | some hit => keepDeeper acc hit)
    none

/-- The start-position re-test of the concave-trap branch: the source sets
startClear = false exactly when some candidate passes the vertical filter and
penetrates the start position deeper than PUSH_EPSILON.  (The source computes
this and then returns the start position on both branches, so the value has no
observable effect.) -/
def startBlocked (colls : List Collider) (cands : List ℕ)
    (startX startZ playerMinY playerMaxY onTopEps : ℝ) : Prop :=
  ∃ i ∈ cands, ∃ c, colls.get? i = some c ∧
    ¬ (playerMaxY ≤ c.minY ∨ playerMinY ≥ c.maxY - onTopEps) ∧
    ∃ h, colliderTest c startX startZ = some h ∧ h.depth > ↑PUSH_EPSILON

/-- The iterative sliding loop of resolveMovement.  `fuel` is the number of
iterations left (MAX_SLIDE_ITERATIONS at entry); `notFirst` is true from the
second iteration on (iter > 0); prevNx, prevNz hold the previous iteration's
push normal.  A `none` result models a NaN position (see the module
comment). -/
def slideLoop (colls : List Collider) (cands : List ℕ)
    (startX startZ playerMinY playerMaxY onTopEps : ℝ) :
    ℕ → ℝ → ℝ → ℝ → ℝ → Bool → Option (ℝ × ℝ)
  | 0, posX, posZ, _, _, _ => some (posX, posZ)
  | fuel + 1, posX, posZ, prevNx, prevNz, notFirst =>
    match findDeepest colls cands posX posZ playerMinY playerMaxY onTopEps with
    | none => some (posX, posZ)
    | some h =>
      -- Detect concave trap: consecutive push-outs in opposite directions
      if notFirst = true ∧ h.nx * prevNx + h.nz * prevNz < -0.5 then
        -- The source re-tests the start position here (see startBlocked) and
        -- then returns the start position whether or not it was clear.
        some (startX, startZ)
      else
        match h.depth with
        | ⊤ =>
          -- Push along a zero normal with Infinity depth: 0 * Infinity = NaN
          none
        | (d : ℝ) =>
          slideLoop colls cands startX startZ playerMinY playerMaxY onTopEps fuel
            (posX + h.nx * (d + PUSH_EPSILON)) (posZ + h.nz * (d + PUSH_EPSILON)) h.nx h.nz true

def resolveMovement (s : CollisionState) (startX startZ endX endZ playerY : ℝ)
    (grounded : Bool := true) : Option (ℝ × ℝ) :=
  if s.colliders.length = 0 then some (endX, endZ)
  else
    -- Broad-phase: query swept bounding rect expanded by player radius
    let qMinX := min startX endX - PLAYER_RADIUS
    let qMinZ := min startZ endZ - PLAYER_RADIUS
    let qMaxX := max startX endX + PLAYER_RADIUS
    let qMaxZ := max startZ endZ + PLAYER_RADIUS
    let candidates := queryGrid s.spatialGrid qMinX qMinZ qMaxX qMaxZ
    if candidates.length = 0 then some (endX, endZ)
    else
      let playerMinY := playerY
      let playerMaxY := playerY + PLAYER_HEIGHT
      -- Tolerance: skip horizontal collision when the feet rest at a
      -- collider's top; only applied when grounded
      let onTopEps : ℝ := if grounded then 0.15 else 0
      slideLoop s.colliders candidates startX startZ playerMinY playerMaxY onTopEps
        MAX_SLIDE_ITERATIONS endX endZ 0 0 false

/-! ### Vertical collision: surface height query -/

/-- The walkable-triangle surface height of getCollisionHeightAt: normal
check, barycentric point-in-triangle test (with edge tolerance), and Y
interpolation; `none` when any guard rejects the triangle. -/
def triSurfaceY (tri : Tri3) (px pz : ℝ) : Option ℝ :=
  let e1x := tri.p2x - tri.p1x
  let e1y := tri.p2y - tri.p1y
  let e1z := tri.p2z - tri.p1z
  let e2x := tri.p3x - tri.p1x
  let e2y := tri.p3y - tri.p1y
  let e2z := tri.p3z - tri.p1z
  let ny := e1z * e2x - e1x * e2z
  let nx := e1y * e2z - e1z * e2y
  let nz := e1x * e2y - e1y * e2x
  let nLenSq := nx * nx + ny * ny + nz * nz
  if nLenSq < 1e-10 then none
  else if ny * ny / nLenSq < MIN_WALKABLE_NORMAL_Y_SQ then none
  else
    let v0x := tri.p3x - tri.p1x
    let v0z := tri.p3z - tri.p1z
    let v1x := tri.p2x - tri.p1x
    let v1z := tri.p2z - tri.p1z
    let v2x := px - tri.p1x
    let v2z := pz - tri.p1z
    let dot00 := v0x * v0x + v0z * v0z
    let dot01 := v0x * v1x + v0z * v1z
    let dot02 := v0x * v2x + v0z * v2z
    let dot11 := v1x * v1x + v1z * v1z
    let dot12 := v1x * v2x + v1z * v2z
    let denom := dot00 * dot11 - dot01 * dot01
    if |denom| < 1e-10 then none
    else
      let inv := 1 / denom
      let u := (dot11 * dot02 - dot01 * dot12) * inv
      let v := (dot00 * dot12 - dot01 * dot02) * inv
      if u < -0.01 ∨ v < -0.01 ∨ u + v > 1.01 then none
      else some ((1 - u - v) * tri.p1y + v * tri.p2y + u * tri.p3y)

/-- The per-collider accumulator update of getCollisionHeightAt, including the
quick minY bound.  A trimesh without 3D data matches no dispatch branch of the
source and contributes nothing. -/
def collHeightStep (px pz maxAllowedY : ℝ) (acc : WithBot ℝ) (c : Collider) :
    WithBot ℝ :=
  if c.minY > maxAllowedY then acc
  else
    match c with
    | .trimesh _ _ _ (some t3) =>
      t3.foldl
        (fun a tri =>
          match triSurfaceY tri px pz with
          | none => a
          | some surfaceY => if surfaceY ≤ maxAllowedY ∧ a < ↑surfaceY then ↑surfaceY else a)
        acc
    | .trimesh _ _ _ none => acc
    | .aabb minX minZ maxX maxZ _ maxY =>
      if minX ≤ px ∧ px ≤ maxX ∧ minZ ≤ pz ∧ pz ≤ maxZ then
        (if maxY ≤ maxAllowedY ∧ acc < ↑maxY then ↑maxY else acc)
      else acc
    | .obb cx cz halfW halfD cosA sinA _ maxY =>
      let dx := px - cx
      let dz := pz - cz
      let localX := cosA * dx - sinA * dz
      let localZ := sinA * dx + cosA * dz
      if -halfW ≤ localX ∧ localX ≤ halfW ∧ -halfD ≤ localZ ∧ localZ ≤ halfD then
        (if maxY ≤ maxAllowedY ∧ acc < ↑maxY then ↑maxY else acc)
      else acc
    | .cylinder cx cz radius _ maxY =>
      let dx := px - cx
      let dz := pz - cz
      if dx * dx + dz * dz ≤ radius * radius then
        (if maxY ≤ maxAllowedY ∧ acc < ↑maxY then ↑maxY else acc)
      else acc

/-- getCollisionHeightAt(px, pz, playerY, stepHeight): highest walkable
surface at (px, pz) not above playerY + stepHeight, `⊥` (-Infinity) if none. -/
def getCollisionHeightAt (s : CollisionState) (px pz playerY stepHeight : ℝ) :
    WithBot ℝ :=
  if s.colliders.length = 0 then ⊥
  else
    let candidates :=
      queryGrid s.spatialGrid (px - PLAYER_RADIUS) (pz - PLAYER_RADIUS)
        (px + PLAYER_RADIUS) (pz + PLAYER_RADIUS)
    if candidates.length = 0 then ⊥
    else
      let maxAllowedY := playerY + stepHeight
      candidates.foldl
        (fun acc i =>
          match s.colliders.get? i with
          | none => acc
          | some c => collHeightStep px pz maxAllowedY acc c)
        ⊥

/-- Grid validity invariant: every index stored in any cell list is a valid
index into the collider registry. -/
def GoodState (s : CollisionState) : Prop :=
  ∀ k idx, idx ∈ s.spatialGrid k → idx < s.colliders.length

/-- States reachable from the empty state by the four registration
operations. -/
inductive Reachable : CollisionState → Prop where
  | empty : Reachable CollisionState.empty
  | cylinderStep (s : CollisionState) (cx cz radius minY maxY : ℝ) :
      Reachable s → Reachable (addCylinderCollider s cx cz radius minY maxY)
  | aabbStep (s : CollisionState) (minX minZ maxX maxZ minY maxY : ℝ) :
      Reachable s → Reachable (addAABBCollider s minX minZ maxX maxZ minY maxY)
  | obbStep (s : CollisionState) (cx cz halfW halfD cosA sinA minY maxY : ℝ) :
      Reachable s → Reachable (addOBBCollider s cx cz halfW halfD cosA sinA minY maxY)
  | trimeshStep (s : CollisionState) (tris : List Tri2) (minY maxY : ℝ)
      (tris3D : Option (List Tri3)) :
      Reachable s → Reachable (addTrimeshCollider s tris minY maxY tris3D)

/-- The surface heights a single candidate collider offers at (px, pz) and are
accepted by getCollisionHeightAt: the collider passes the quick minY bound,
the per-variant containment test holds, and the height does not exceed
maxAllowedY. -/
noncomputable def surfaceHeights (px pz maxAllowedY : ℝ) (c : Collider) : List ℝ :=
  if c.minY > maxAllowedY then []
  else
    match c with
    | .trimesh _ _ _ (some t3) =>
      t3.filterMap fun tri =>
        match triSurfaceY tri px pz with
        | none => none
        | some y => if y ≤ maxAllowedY then some y else none
    | .trimesh _ _ _ none => []
    | .aabb minX minZ maxX maxZ _ maxY =>
      if (minX ≤ px ∧ px ≤ maxX ∧ minZ ≤ pz ∧ pz ≤ maxZ) ∧ maxY ≤ maxAllowedY then [maxY]
      else []
    | .obb cx cz halfW halfD cosA sinA _ maxY =>
      let dx := px - cx
      let dz := pz - cz
      let localX := cosA * dx - sinA * dz
      let localZ := sinA * dx + cosA * dz
      if (-halfW ≤ localX ∧ localX ≤ halfW ∧ -halfD ≤ localZ ∧ localZ ≤ halfD) ∧
          maxY ≤ maxAllowedY then [maxY]
      else []
    | .cylinder cx cz radius _ maxY =>
      let dx := px - cx
      let dz := pz - cz
      if dx * dx + dz * dz ≤ radius * radius ∧ maxY ≤ maxAllowedY then [maxY] else []

/-- Every accepted surface height of a registered candidate, across the whole
broad-phase result of getCollisionHeightAt. -/
noncomputable def acceptedHeights (s : CollisionState) (px pz playerY stepHeight : ℝ) :
    List ℝ :=
  ((queryGrid s.spatialGrid (px - PLAYER_RADIUS) (pz - PLAYER_RADIUS)
      (px + PLAYER_RADIUS) (pz + PLAYER_RADIUS)).filterMap s.colliders.get?).flatMap
    (surfaceHeights px pz (playerY + stepHeight))

/-- Well-formedness of the convex collider variants: ordered box bounds,
non-negative radius and half-extents, unit rotation. -/
def convexWellFormed : Collider → Prop
  | .aabb minX minZ maxX maxZ _ _ => minX ≤ maxX ∧ minZ ≤ maxZ
  | .cylinder _ _ radius _ _ => 0 ≤ radius
  | .obb _ _ halfW halfD cosA sinA _ _ =>
      0 ≤ halfW ∧ 0 ≤ halfD ∧ cosA * cosA + sinA * sinA = 1
  | .trimesh _ _ _ _ => False

/-- The state produced by registering a single collider into an empty world
through the matching registration function. -/
noncomputable def registerOne : Collider → CollisionState
  | .aabb minX minZ maxX maxZ minY maxY =>
      addAABBCollider CollisionState.empty minX minZ maxX maxZ minY maxY
  | .cylinder cx cz radius minY maxY =>
      addCylinderCollider CollisionState.empty cx cz radius minY maxY
  | .obb cx cz halfW halfD cosA sinA minY maxY =>
      addOBBCollider CollisionState.empty cx cz halfW halfD cosA sinA minY maxY
  | .trimesh tris minY maxY tris3D =>
      addTrimeshCollider CollisionState.empty tris minY maxY tris3D

end

end WoV

namespace WoV

/-! ### Spatial grid lemmas -/

theorem mem_intRange {lo hi n : ℤ} : n ∈ intRange lo hi ↔ lo ≤ n ∧ n ≤ hi := by
  unfold intRange
  rw [List.mem_map]
  constructor
  · intro h
    obtain ⟨m, hm, hEq⟩ := h
    have := List.mem_range.mp hm
    omega
  · intro h
    exact ⟨(n - lo).toNat, List.mem_range.mpr (by omega), by omega⟩

theorem mem_foldl_addUnique (l : List ℕ) (acc : List ℕ) (x : ℕ) :
    x ∈ l.foldl addUnique acc ↔ x ∈ acc ∨ x ∈ l := by
  induction l generalizing acc with
  | nil => simp
  | cons a as ih =>
    simp only [List.foldl_cons, ih, addUnique]
    by_cases ha : a ∈ acc
    · rw [if_pos ha]
      constructor
      · rintro (h | h)
        · exact Or.inl h
        · exact Or.inr (List.mem_cons_of_mem _ h)
      · rintro (h | h)
        · exact Or.inl h
        · rcases List.mem_cons.mp h with rfl | h
          · exact Or.inl ha
          · exact Or.inr h
    · rw [if_neg ha]
      simp only [List.mem_append, List.mem_singleton, List.mem_cons]
      tauto

theorem nodup_foldl_addUnique (l : List ℕ) (acc : List ℕ) (h : acc.Nodup) :
    (l.foldl addUnique acc).Nodup := by
  induction l generalizing acc with
  | nil => simpa
  | cons a as ih =>
    simp only [List.foldl_cons, addUnique]
    by_cases ha : a ∈ acc
    · rw [if_pos ha]; exact ih acc h
    · rw [if_neg ha]
      exact ih _ ((List.nodup_append).mpr ⟨h, List.nodup_singleton a, by simpa using ha⟩)

theorem mem_queryGrid_inner (g : ℤ → List ℕ) (cx : ℤ) (l2 : List ℤ)
    (acc : List ℕ) (x : ℕ) :
    x ∈ l2.foldl (fun res cz => (g (cellKey cx cz)).foldl addUnique res) acc ↔
      x ∈ acc ∨ ∃ cz ∈ l2, x ∈ g (cellKey cx cz) := by
  induction l2 generalizing acc with
  | nil => simp
  | cons b bs ih =>
    simp only [List.foldl_cons, ih, mem_foldl_addUnique, List.mem_cons]
    constructor
    · rintro ((h | h) | ⟨cz, hcz, h⟩)
      · exact Or.inl h
      · exact Or.inr ⟨b, Or.inl rfl, h⟩
      · exact Or.inr ⟨cz, Or.inr hcz, h⟩
    · rintro (h | ⟨cz, (rfl | hcz), h⟩)
      · exact Or.inl (Or.inl h)
      · exact Or.inl (Or.inr h)
      · exact Or.inr ⟨cz, hcz, h⟩

theorem mem_queryGrid_fold (g : ℤ → List ℕ) (l1 l2 : List ℤ) (acc : List ℕ) (x : ℕ) :
    x ∈ l1.foldl
        (fun res cx => l2.foldl (fun res cz => (g (cellKey cx cz)).foldl addUnique res) res)
        acc ↔
      x ∈ acc ∨ ∃ cx ∈ l1, ∃ cz ∈ l2, x ∈ g (cellKey cx cz) := by
  induction l1 generalizing acc with
  | nil => simp
  | cons a as ih =>
    simp only [List.foldl_cons, ih, mem_queryGrid_inner, List.mem_cons]
    constructor
    · rintro ((h | ⟨cz, hcz, h⟩) | ⟨cx, hcx, hrest⟩)
      · exact Or.inl h
      · exact Or.inr ⟨a, Or.inl rfl, cz, hcz, h⟩
      · exact Or.inr ⟨cx, Or.inr hcx, hrest⟩
    · rintro (h | ⟨cx, (rfl | hcx), hrest⟩)
      · exact Or.inl (Or.inl h)
      · exact Or.inl (Or.inr hrest)
      · exact Or.inr ⟨cx, hcx, hrest⟩

theorem mem_queryGrid {g : ℤ → List ℕ} {minX minZ maxX maxZ : ℝ} {idx : ℕ} :
    idx ∈ queryGrid g minX minZ maxX maxZ ↔
      ∃ cx ∈ cellRange minX maxX, ∃ cz ∈ cellRange minZ maxZ, idx ∈ g (cellKey cx cz) := by
  unfold queryGrid
  rw [mem_queryGrid_fold]
  simp

theorem nodup_queryGrid (g : ℤ → List ℕ) (minX minZ maxX maxZ : ℝ) :
    (queryGrid g minX minZ maxX maxZ).Nodup := by
  unfold queryGrid
  have key : ∀ (l1 : List ℤ) (acc : List ℕ), acc.Nodup →
      (l1.foldl
        (fun res cx =>
          (cellRange minZ maxZ).foldl (fun res cz => (g (cellKey cx cz)).foldl addUnique res) res)
        acc).Nodup := by
    intro l1
    induction l1 with
    | nil => intro acc h; simpa
    | cons a as ih =>
      intro acc h
      simp only [List.foldl_cons]
      apply ih
      have inner : ∀ (l2 : List ℤ) (acc : List ℕ), acc.Nodup →
          (l2.foldl (fun res cz => (g (cellKey a cz)).foldl addUnique res) acc).Nodup := by
        intro l2
        induction l2 with
        | nil => intro acc h; simpa
        | cons b bs ih2 =>
          intro acc h
          simp only [List.foldl_cons]
          exact ih2 _ (nodup_foldl_addUnique _ _ h)
      exact inner _ acc h
  exact key _ [] List.nodup_nil

theorem mem_insertIntoGrid_fold_of_mem (g : ℤ → List ℕ) (index : ℕ) (l1 l2 : List ℤ)
    (k : ℤ) (y : ℕ) (h : y ∈ g k) :
    y ∈ (l1.foldl
        (fun (g : ℤ → List ℕ) (cx : ℤ) =>
          l2.foldl (fun (g : ℤ → List ℕ) (cz : ℤ) =>
            Function.update g (cellKey cx cz) (g (cellKey cx cz) ++ [index])) g)
        g) k := by
  induction l1 generalizing g with
  | nil => simpa
  | cons a as ih =>
    simp only [List.foldl_cons]
    apply ih
    have inner : ∀ (l2' : List ℤ) (g' : ℤ → List ℕ), y ∈ g' k →
        y ∈ (l2'.foldl
          (fun (g : ℤ → List ℕ) (cz : ℤ) =>
            Function.update g (cellKey a cz) (g (cellKey a cz) ++ [index])) g') k := by
      intro l2'
      induction l2' with
      | nil => intro g' hy; simpa
      | cons b bs ih2 =>
        intro g' hy
        simp only [List.foldl_cons]
        apply ih2
        by_cases hk : k = cellKey a b
        · rw [hk] at hy ⊢
          simp only [Function.update_same]
          exact List.mem_append_left _ hy
        · rwa [Function.update_noteq hk]
    exact inner l2 g h

theorem mem_insertIntoGrid_fold_self (g : ℤ → List ℕ) (index : ℕ) (l1 l2 : List ℤ)
    (cx cz : ℤ) (hx : cx ∈ l1) (hz : cz ∈ l2) :
    index ∈ (l1.foldl
        (fun (g : ℤ → List ℕ) (cx : ℤ) =>
          l2.foldl (fun (g : ℤ → List ℕ) (cz : ℤ) =>
            Function.update g (cellKey cx cz) (g (cellKey cx cz) ++ [index])) g)
        g) (cellKey cx cz) := by
  induction l1 generalizing g with
  | nil => cases hx
  | cons a as ih =>
    simp only [List.foldl_cons]
    rcases List.mem_cons.mp hx with rfl | hx'
    · -- the inner pass over l2 inserts at (cx, cz); later outer passes preserve
      apply mem_insertIntoGrid_fold_of_mem
      have inner : ∀ (l2' : List ℤ) (g' : ℤ → List ℕ), cz ∈ l2' →
          index ∈ (l2'.foldl
            (fun (g : ℤ → List ℕ) (cz : ℤ) =>
              Function.update g (cellKey cx cz) (g (cellKey cx cz) ++ [index])) g')
            (cellKey cx cz) := by
        intro l2'
        induction l2' with
        | nil => intro g' hz'; cases hz'
        | cons b bs ih2 =>
          intro g' hz'
          simp only [List.foldl_cons]
          rcases List.mem_cons.mp hz' with rfl | hz''
          · by_cases hmem : cz ∈ bs
            · exact ih2 _ hmem
            · -- cz appears only at the head: the update persists through bs
              have : ∀ (l3 : List ℤ) (g'' : ℤ → List ℕ), cz ∉ l3 →
                  index ∈ g'' (cellKey cx cz) →
                  index ∈ (l3.foldl
                    (fun (g : ℤ → List ℕ) (cz' : ℤ) =>
                      Function.update g (cellKey cx cz') (g (cellKey cx cz') ++ [index]))
                    g'') (cellKey cx cz) := by
                intro l3
                induction l3 with
                | nil => intro g'' _ hy; simpa
                | cons d ds ih3 =>
                  intro g'' hnot hy
                  simp only [List.foldl_cons]
                  apply ih3 _ (fun hmem => hnot (List.mem_cons_of_mem _ hmem))
                  by_cases hk : cellKey cx cz = cellKey cx d
                  · rw [hk] at hy ⊢
                    simp only [Function.update_same]
                    exact List.mem_append_left _ hy
                  · rwa [Function.update_noteq hk]
              apply this _ _ hmem
              simp only [Function.update_same]
              exact List.mem_append_right _ (List.mem_singleton.mpr rfl)
          · exact ih2 _ hz''
      exact inner l2 g hz
    · exact ih _ hx'

theorem mem_insertIntoGrid_of_mem {g : ℤ → List ℕ} {index : ℕ} {a b c d : ℝ} {k : ℤ} {y : ℕ}
    (h : y ∈ g k) : y ∈ insertIntoGrid g index a b c d k :=
  mem_insertIntoGrid_fold_of_mem g index _ _ k y h

theorem self_mem_insertIntoGrid {g : ℤ → List ℕ} {index : ℕ} {a b c d : ℝ} {cx cz : ℤ}
    (hx : cx ∈ cellRange a c) (hz : cz ∈ cellRange b d) :
    index ∈ insertIntoGrid g index a b c d (cellKey cx cz) :=
  mem_insertIntoGrid_fold_self g index _ _ cx cz hx hz

theorem mem_insertIntoGrid_elim (g : ℤ → List ℕ) (index : ℕ) (a b c d : ℝ) (k : ℤ) (y : ℕ)
    (h : y ∈ insertIntoGrid g index a b c d k) : y ∈ g k ∨ y = index := by
  unfold insertIntoGrid at h
  have key : ∀ (l1 l2 : List ℤ) (g' : ℤ → List ℕ),
      y ∈ (l1.foldl
        (fun (g : ℤ → List ℕ) (cx : ℤ) =>
          l2.foldl (fun (g : ℤ → List ℕ) (cz : ℤ) =>
            Function.update g (cellKey cx cz) (g (cellKey cx cz) ++ [index])) g)
        g') k → y ∈ g' k ∨ y = index := by
    intro l1
    induction l1 with
    | nil => intro l2 g' h'; exact Or.inl h'
    | cons a' as ih =>
      intro l2 g' h'
      simp only [List.foldl_cons] at h'
      rcases ih l2 _ h' with h'' | h''
      · have inner : ∀ (l2' : List ℤ) (g'' : ℤ → List ℕ),
            y ∈ (l2'.foldl
              (fun (g : ℤ → List ℕ) (cz : ℤ) =>
                Function.update g (cellKey a' cz) (g (cellKey a' cz) ++ [index])) g'') k →
            y ∈ g'' k ∨ y = index := by
          intro l2'
          induction l2' with
          | nil => intro g'' hy; exact Or.inl hy
          | cons b' bs ih2 =>
            intro g'' hy
            simp only [List.foldl_cons] at hy
            rcases ih2 _ hy with hy' | hy'
            · by_cases hk : k = cellKey a' b'
              · rw [hk] at hy' ⊢
                simp only [Function.update_same] at hy'
                rcases List.mem_append.mp hy' with hy'' | hy''
                · exact Or.inl hy''
                · exact Or.inr (List.mem_singleton.mp hy'')
              · rw [Function.update_noteq hk] at hy'
                exact Or.inl hy'
            · exact Or.inr hy'
        exact inner l2 g' h''
      · exact Or.inr h''
  exact key _ _ g h

end WoV

namespace WoV

/-! ### Registration and reachability -/


theorem goodState_insert (colls : List Collider) (g : ℤ → List ℕ) (c : Collider)
    (a b c' d : ℝ) (h : GoodState ⟨colls, g⟩) :
    GoodState ⟨colls ++ [c], insertIntoGrid g colls.length a b c' d⟩ := by
  intro k idx hmem
  rcases mem_insertIntoGrid_elim g colls.length a b c' d k idx hmem with h' | h'
  · exact lt_of_lt_of_le (h k idx h') (by simp)
  · simp [h']

theorem goodState_reachable (s : CollisionState) (hs : Reachable s) : GoodState s := by
  induction hs with
  | empty => intro k idx hmem; cases hmem
  | cylinderStep s cx cz radius minY maxY _ ih =>
    exact goodState_insert s.colliders s.spatialGrid _ _ _ _ _ ih
  | aabbStep s minX minZ maxX maxZ minY maxY _ ih =>
    exact goodState_insert s.colliders s.spatialGrid _ _ _ _ _ ih
  | obbStep s cx cz halfW halfD cosA sinA minY maxY _ ih =>
    exact goodState_insert s.colliders s.spatialGrid _ _ _ _ _ ih
  | trimeshStep s tris minY maxY tris3D _ ih =>
    unfold addTrimeshCollider
    rcases tris with _ | ⟨t, rest⟩
    · intro k idx hmem
      exact lt_of_lt_of_le (ih k idx hmem) (by simp)
    · exact goodState_insert s.colliders s.spatialGrid _ _ _ _ _ ih

/-- C10: after any sequence of the four registration operations, every index
stored in any spatial-grid cell list is strictly below the registry length, so
every index returned by queryGrid dereferences to a registered collider; the
invariant is preserved because each registration inserts exactly the index
that equals the registry length just before the push. -/
theorem grid_indices_always_valid (s : CollisionState) (hs : Reachable s) :
    (∀ k idx, idx ∈ s.spatialGrid k → idx < s.colliders.length) ∧
    (∀ minX minZ maxX maxZ idx, idx ∈ queryGrid s.spatialGrid minX minZ maxX maxZ →
      ∃ c, s.colliders.get? idx = some c) := by
  have good := goodState_reachable s hs
  refine ⟨good, ?_⟩
  intro minX minZ maxX maxZ idx hq
  obtain ⟨cx, _, cz, _, hmem⟩ := mem_queryGrid.mp hq
  have hlt := good _ idx hmem
  exact ⟨s.colliders.get ⟨idx, hlt⟩, List.get?_eq_get hlt⟩

/-- C10 witness: a concretely registered collider is dereferenced by the index
the grid query returns. -/
theorem grid_indices_always_valid_witness :
    ∃ c, (addAABBCollider CollisionState.empty 0 0 1 1 0 2).colliders.get? 0 = some c := by
  have hreach : Reachable (addAABBCollider CollisionState.empty 0 0 1 1 0 2) :=
    Reachable.aabbStep _ 0 0 1 1 0 2 Reachable.empty
  have hcell0 : (0 : ℤ) ∈ cellRange (0 : ℝ) 1 := by
    rw [cellRange, mem_intRange]
    constructor
    · rw [show ((0 : ℝ) / CELL_SIZE) = 0 by norm_num [CELL_SIZE]]
      norm_num
    · rw [show ⌊(1 : ℝ) / CELL_SIZE⌋ = 0 by rw [Int.floor_eq_zero_iff]; constructor <;> norm_num [CELL_SIZE]]
  have hgrid : 0 ∈ (addAABBCollider CollisionState.empty 0 0 1 1 0 2).spatialGrid (cellKey 0 0) := by
    exact self_mem_insertIntoGrid hcell0 hcell0
  have hq : 0 ∈ queryGrid (addAABBCollider CollisionState.empty 0 0 1 1 0 2).spatialGrid 0 0 1 1 :=
    mem_queryGrid.mpr ⟨0, hcell0, 0, hcell0, hgrid⟩
  exact (grid_indices_always_valid _ hreach).2 0 0 1 1 0 hq

/-- C9: queryGrid returns exactly the de-duplicated union of the index lists
of the grid cells overlapping the query rectangle; insertIntoGrid puts the
index into every cell of the insertion rectangle, so an index whose insertion
cell range shares a cell with the query cell range is returned. -/
theorem queryGrid_exact_union (g : ℤ → List ℕ) (minX minZ maxX maxZ : ℝ) :
    (queryGrid g minX minZ maxX maxZ).Nodup ∧
    (∀ idx, idx ∈ queryGrid g minX minZ maxX maxZ ↔
      ∃ cx ∈ cellRange minX maxX, ∃ cz ∈ cellRange minZ maxZ, idx ∈ g (cellKey cx cz)) ∧
    (∀ (index : ℕ) (iMinX iMinZ iMaxX iMaxZ : ℝ) (cx cz : ℤ),
      cx ∈ cellRange iMinX iMaxX → cz ∈ cellRange iMinZ iMaxZ →
      index ∈ insertIntoGrid g index iMinX iMinZ iMaxX iMaxZ (cellKey cx cz)) ∧
    (∀ (index : ℕ) (iMinX iMinZ iMaxX iMaxZ : ℝ) (cx cz : ℤ),
      cx ∈ cellRange iMinX iMaxX → cz ∈ cellRange iMinZ iMaxZ →
      cx ∈ cellRange minX maxX → cz ∈ cellRange minZ maxZ →
      index ∈ queryGrid (insertIntoGrid g index iMinX iMinZ iMaxX iMaxZ) minX minZ maxX maxZ) := by
  refine ⟨nodup_queryGrid g minX minZ maxX maxZ, fun idx => mem_queryGrid, ?_, ?_⟩
  · intro index iMinX iMinZ iMaxX iMaxZ cx cz hx hz
    exact self_mem_insertIntoGrid hx hz
  · intro index iMinX iMinZ iMaxX iMaxZ cx cz hx hz hqx hqz
    exact mem_queryGrid.mpr ⟨cx, hqx, cz, hqz, self_mem_insertIntoGrid hx hz⟩

/-- C9 witness: a concrete insertion into an overlapping cell range is
returned by the query. -/
theorem queryGrid_exact_union_witness :
    0 ∈ queryGrid (insertIntoGrid (fun _ => []) 0 0 0 1 1) 0 0 1 1 := by
  have hcell0 : (0 : ℤ) ∈ cellRange (0 : ℝ) 1 := by
    rw [cellRange, mem_intRange]
    constructor
    · rw [show ((0 : ℝ) / CELL_SIZE) = 0 by norm_num [CELL_SIZE]]
      norm_num
    · rw [show ⌊(1 : ℝ) / CELL_SIZE⌋ = 0 by rw [Int.floor_eq_zero_iff]; constructor <;> norm_num [CELL_SIZE]]
  exact (queryGrid_exact_union (fun _ => []) 0 0 1 1).2.2.2 0 0 0 1 1 0 0
    hcell0 hcell0 hcell0 hcell0

/-- C5 counterexample: a registration call with maxY <= minY (here minY = 1,
maxY = 0) is not rejected: the degenerate collider is appended to the registry
and its index is inserted into the grid. -/
theorem degenerate_collider_silently_accepted :
    (addAABBCollider CollisionState.empty 0 0 1 1 1 0).colliders.length = 1 ∧
    0 ∈ (addAABBCollider CollisionState.empty 0 0 1 1 1 0).spatialGrid (cellKey 0 0) := by
  constructor
  · rfl
  · have hcell0 : (0 : ℤ) ∈ cellRange (0 : ℝ) 1 := by
      rw [cellRange, mem_intRange]
      constructor
      · rw [show ((0 : ℝ) / CELL_SIZE) = 0 by norm_num [CELL_SIZE]]
        norm_num
      · rw [show ⌊(1 : ℝ) / CELL_SIZE⌋ = 0 by rw [Int.floor_eq_zero_iff]; constructor <;> norm_num [CELL_SIZE]]
    exact self_mem_insertIntoGrid hcell0 hcell0

/-- C5 amended: the registration functions perform no validation at all —
every call, degenerate vertical range (maxY <= minY) included, appends its
collider record to the registry unconditionally. -/
theorem registration_never_rejects (s : CollisionState)
    (a b c d e f g h : ℝ) (tris : List Tri2) (t3 : Option (List Tri3)) :
    (addAABBCollider s a b c d e f).colliders = s.colliders ++ [Collider.aabb a b c d e f] ∧
    (addCylinderCollider s a b c d e).colliders = s.colliders ++ [Collider.cylinder a b c d e] ∧
    (addOBBCollider s a b c d e f g h).colliders
      = s.colliders ++ [Collider.obb a b c d e f g h] ∧
    (addTrimeshCollider s tris e f t3).colliders
      = s.colliders ++ [Collider.trimesh tris e f t3] := by
  refine ⟨rfl, rfl, rfl, ?_⟩
  unfold addTrimeshCollider
  rcases tris with _ | ⟨t, rest⟩ <;> rfl

end WoV

namespace WoV

/-! ### OBB / AABB equivalence -/

theorem testCylinderVsAABB_translate (px pz pRadius minX minZ maxX maxZ tx tz : ℝ) :
    testCylinderVsAABB (px + tx) (pz + tz) pRadius (minX + tx) (minZ + tz)
        (maxX + tx) (maxZ + tz)
      = testCylinderVsAABB px pz pRadius minX minZ maxX maxZ := by
  simp only [testCylinderVsAABB, min_add_add_right, max_add_add_right,
    add_sub_add_right_eq_sub]

/-- C7: an OBB with cosA = 1, sinA = 0 produces exactly the same result as the
axis-aligned box of the same half-extents around the same center, for every
position and radius. -/
theorem testCylinderVsOBB_zero_rotEq
    (px pz pRadius cx cz halfW halfD : ℝ) :
    testCylinderVsOBB px pz pRadius cx cz halfW halfD 1 0
      = testCylinderVsAABB px pz pRadius (cx - halfW) (cz - halfD) (cx + halfW) (cz + halfD) := by
  have hinner : testCylinderVsAABB (px - cx) (pz - cz) pRadius (-halfW) (-halfD) halfW halfD
      = testCylinderVsAABB px pz pRadius (cx - halfW) (cz - halfD) (cx + halfW) (cz + halfD) := by
    have h := testCylinderVsAABB_translate (px - cx) (pz - cz) pRadius (-halfW) (-halfD)
      halfW halfD cx cz
    rw [sub_add_cancel, sub_add_cancel, neg_add_eq_sub, neg_add_eq_sub] at h
    rw [← h]
    ring_nf
  unfold testCylinderVsOBB
  simp only [one_mul, zero_mul, sub_zero, add_zero, zero_add, neg_zero]
  rw [hinner]
  rcases h : testCylinderVsAABB px pz pRadius (cx - halfW) (cz - halfD) (cx + halfW)
      (cz + halfD) with _ | hit
  · rfl
  · simp

end WoV

namespace WoV

/-! ### Trimesh walkable-triangle exclusion -/

theorem keepDeeper_eq_some (acc : Option Hit) (hit h : Hit)
    (hk : keepDeeper acc hit = some h) : acc = some h ∨ hit = h := by
  rcases acc with _ | h0 <;> simp only [keepDeeper] at hk
  · by_cases hd : hit.depth > 0
    · rw [if_pos hd] at hk
      exact Or.inr (Option.some.inj hk)
    · rw [if_neg hd] at hk
      cases hk
  · by_cases hd : hit.depth > h0.depth
    · rw [if_pos hd] at hk
      exact Or.inr (Option.some.inj hk)
    · rw [if_neg hd] at hk
      exact Or.inl hk

theorem trimesh_fold_contributor (px pz pRadius : ℝ) (tris3D : Option (List Tri3))
    (l : List (ℕ × Tri2)) (acc : Option Hit) (h : Hit)
    (hres : l.foldl
        (fun acc it =>
          if walkableSkip tris3D it.1 then acc
          else
            match testCircleVsTriangle px pz pRadius it.2.ax it.2.az it.2.bx it.2.bz it.2.cx it.2.cz with
            | none => acc
            | some hit => keepDeeper acc hit)
        acc = some h) :
    acc = some h ∨ ∃ it ∈ l, ¬ walkableSkip tris3D it.1 ∧
      testCircleVsTriangle px pz pRadius it.2.ax it.2.az it.2.bx it.2.bz it.2.cx it.2.cz
        = some h := by
  induction l generalizing acc with
  | nil => exact Or.inl hres
  | cons it rest ih =>
    simp only [List.foldl_cons] at hres
    rcases ih _ hres with hstep | ⟨it', hit', hrest⟩
    · by_cases hskip : walkableSkip tris3D it.1
      · rw [if_pos hskip] at hstep
        exact Or.inl hstep
      · rw [if_neg hskip] at hstep
        rcases hc : testCircleVsTriangle px pz pRadius it.2.ax it.2.az it.2.bx it.2.bz
            it.2.cx it.2.cz with _ | hit
        · rw [hc] at hstep
          exact Or.inl hstep
        · rw [hc] at hstep
          rcases keepDeeper_eq_some _ _ _ hstep with hacc | rfl
          · exact Or.inl hacc
          · exact Or.inr ⟨it, List.mem_cons_self _ _, hskip, hc⟩
    · exact Or.inr ⟨it', List.mem_cons_of_mem _ hit', hrest⟩

/-- C8: when a trimesh carries 3D vertex data, every push-out
testCylinderVsTrimesh returns is contributed by a triangle that was not
skipped as walkable: its 3D data (when present at that index) is either
degenerate or has a unit surface normal whose squared Y component is below
MIN_WALKABLE_NORMAL_Y_SQ.  Walkable floor triangles never contribute. -/
theorem trimesh_walkable_never_contributes (px pz pRadius : ℝ) (tris : List Tri2)
    (l3 : List Tri3) (h : Hit)
    (hres : testCylinderVsTrimesh px pz pRadius tris (some l3) = some h) :
    ∃ t tri, tris.get? t = some tri ∧
      (∀ tri3, l3.get? t = some tri3 →
        triNormalLenSq tri3 > 1e-10 →
        triNormalYSq tri3 / triNormalLenSq tri3 < MIN_WALKABLE_NORMAL_Y_SQ) ∧
      testCircleVsTriangle px pz pRadius tri.ax tri.az tri.bx tri.bz tri.cx tri.cz
        = some h := by
  unfold testCylinderVsTrimesh at hres
  rcases trimesh_fold_contributor px pz pRadius (some l3) tris.enum none h hres with
    hacc | ⟨it, hmem, hnskip, htest⟩
  · cases hacc
  · obtain ⟨t, tri⟩ := it
    dsimp only at hmem hnskip htest
    refine ⟨t, tri, ?_, ?_, htest⟩
    · rw [List.get?_eq_getElem?]
      exact List.mk_mem_enum_iff_getElem?.mp hmem
    · intro tri3 hget3 hlen
      by_contra hge
      apply hnskip
      simp only [walkableSkip]
      rw [hget3]
      exact ⟨hlen, not_lt.mp hge⟩

end WoV

namespace WoV

/-! ### Vertical filter and concave trap -/

theorem findDeepest_skip_candidate (colls : List Collider) (i : ℕ) (c : Collider)
    (hget : colls.get? i = some c) (l1 l2 : List ℕ)
    (posX posZ pMinY pMaxY eps : ℝ)
    (hskip : pMaxY ≤ c.minY ∨ pMinY ≥ c.maxY - eps) :
    findDeepest colls (l1 ++ i :: l2) posX posZ pMinY pMaxY eps
      = findDeepest colls (l1 ++ l2) posX posZ pMinY pMaxY eps := by
  unfold findDeepest
  rw [List.foldl_append, List.foldl_append, List.foldl_cons]
  congr 1
  rw [hget]
  exact if_pos hskip

theorem slideLoop_skip_candidate (colls : List Collider) (i : ℕ) (c : Collider)
    (hget : colls.get? i = some c) (l1 l2 : List ℕ)
    (startX startZ pMinY pMaxY eps : ℝ)
    (hskip : pMaxY ≤ c.minY ∨ pMinY ≥ c.maxY - eps) :
    ∀ (fuel : ℕ) (posX posZ prevNx prevNz : ℝ) (b : Bool),
      slideLoop colls (l1 ++ i :: l2) startX startZ pMinY pMaxY eps fuel
          posX posZ prevNx prevNz b
        = slideLoop colls (l1 ++ l2) startX startZ pMinY pMaxY eps fuel
            posX posZ prevNx prevNz b := by
  intro fuel
  induction fuel with
  | zero => intro posX posZ prevNx prevNz b; rfl
  | succ n ih =>
    intro posX posZ prevNx prevNz b
    simp only [slideLoop]
    rw [findDeepest_skip_candidate colls i c hget l1 l2 posX posZ pMinY pMaxY eps hskip]
    rcases findDeepest colls (l1 ++ l2) posX posZ pMinY pMaxY eps with _ | h
    · rfl
    · dsimp only
      by_cases htrap : b = true ∧ h.nx * prevNx + h.nz * prevNz < -0.5
      · rw [if_pos htrap, if_pos htrap]
      · rw [if_neg htrap, if_neg htrap]
        rcases h.depth with _ | d
        · rfl
        · exact ih _ _ _ _ _

/-- C3: a candidate collider participates in narrow-phase testing only when
playerMaxY > minY and playerMinY < maxY - ON_TOP_EPS, where ON_TOP_EPS is 0.15
exactly when grounded and 0 when airborne; consequently a collider whose
vertical range [minY, maxY) is disjoint from the agent range
[playerY, playerY + PLAYER_HEIGHT) never affects the horizontally resolved
position: dropping it from the candidate list leaves the sliding loop's result
unchanged at every iteration and position. -/
theorem verticalFilter_exempts (colls : List Collider) (i : ℕ) (c : Collider)
    (hget : colls.get? i = some c) (l1 l2 : List ℕ) (playerY : ℝ) (grounded : Bool)
    (startX startZ : ℝ) :
    (¬ (playerY + PLAYER_HEIGHT > c.minY ∧
          playerY < c.maxY - (if grounded = true then (0.15 : ℝ) else 0)) →
      ∀ (fuel : ℕ) (posX posZ prevNx prevNz : ℝ) (b : Bool),
        slideLoop colls (l1 ++ i :: l2) startX startZ playerY (playerY + PLAYER_HEIGHT)
            (if grounded = true then (0.15 : ℝ) else 0) fuel posX posZ prevNx prevNz b
          = slideLoop colls (l1 ++ l2) startX startZ playerY (playerY + PLAYER_HEIGHT)
              (if grounded = true then (0.15 : ℝ) else 0) fuel posX posZ prevNx prevNz b) ∧
    (playerY + PLAYER_HEIGHT ≤ c.minY ∨ playerY ≥ c.maxY →
      ∀ (fuel : ℕ) (posX posZ prevNx prevNz : ℝ) (b : Bool),
        slideLoop colls (l1 ++ i :: l2) startX startZ playerY (playerY + PLAYER_HEIGHT)
            (if grounded = true then (0.15 : ℝ) else 0) fuel posX posZ prevNx prevNz b
          = slideLoop colls (l1 ++ l2) startX startZ playerY (playerY + PLAYER_HEIGHT)
              (if grounded = true then (0.15 : ℝ) else 0) fuel posX posZ prevNx prevNz b) := by
  have heps : (0 : ℝ) ≤ if grounded = true then (0.15 : ℝ) else 0 := by
    by_cases hg : grounded = true
    · rw [if_pos hg]; norm_num
    · rw [if_neg hg]
  constructor
  · intro hcond fuel posX posZ prevNx prevNz b
    apply slideLoop_skip_candidate colls i c hget l1 l2
    by_contra hnot
    push_neg at hnot
    exact hcond ⟨hnot.1, hnot.2⟩
  · intro hdisj fuel posX posZ prevNx prevNz b
    apply slideLoop_skip_candidate colls i c hget l1 l2
    rcases hdisj with hbelow | habove
    · exact Or.inl hbelow
    · exact Or.inr (by linarith)

/-- C2: in resolveMovement's loop, from the second iteration on, whenever the
deepest push normal's dot product with the previous iteration's normal is
strictly below -0.5, the loop returns the start position unchanged — both when
the start position is blocked (penetrating deeper than PUSH_EPSILON) and when
it is collision-free. -/
theorem concaveTrap_returns_start (colls : List Collider) (cands : List ℕ)
    (startX startZ pMinY pMaxY eps : ℝ) (fuel : ℕ)
    (posX posZ prevNx prevNz : ℝ) (h : Hit)
    (hdeep : findDeepest colls cands posX posZ pMinY pMaxY eps = some h)
    (hdot : h.nx * prevNx + h.nz * prevNz < -0.5) :
    (startBlocked colls cands startX startZ pMinY pMaxY eps →
      slideLoop colls cands startX startZ pMinY pMaxY eps (fuel + 1)
          posX posZ prevNx prevNz true = some (startX, startZ)) ∧
    (¬ startBlocked colls cands startX startZ pMinY pMaxY eps →
      slideLoop colls cands startX startZ pMinY pMaxY eps (fuel + 1)
          posX posZ prevNx prevNz true = some (startX, startZ)) := by
  have hret : slideLoop colls cands startX startZ pMinY pMaxY eps (fuel + 1)
      posX posZ prevNx prevNz true = some (startX, startZ) := by
    simp only [slideLoop]
    rw [hdeep]
    simp only [eq_self_iff_true, true_and]
    exact if_pos hdot
  exact ⟨fun _ => hret, fun _ => hret⟩

end WoV

namespace WoV

/-! ### Surface height query characterisation -/


theorem maxUpdate_eq (acc : WithBot ℝ) (y maxAllowedY : ℝ) (h : y ≤ maxAllowedY) :
    (if y ≤ maxAllowedY ∧ acc < ↑y then (↑y : WithBot ℝ) else acc) = max acc ↑y := by
  by_cases hlt : acc < (↑y : WithBot ℝ)
  · rw [if_pos ⟨h, hlt⟩, max_eq_right hlt.le]
  · rw [if_neg (fun hc => hlt hc.2), max_eq_left (not_lt.mp hlt)]

theorem stepBranch_eq (cond : Prop) [Decidable cond] (acc : WithBot ℝ) (maxY mA : ℝ) :
    (if cond then (if maxY ≤ mA ∧ acc < ↑maxY then (↑maxY : WithBot ℝ) else acc) else acc)
      = (if cond ∧ maxY ≤ mA then [maxY] else []).foldl (fun a y => max a ↑y) acc := by
  by_cases hc : cond
  · rw [if_pos hc]
    by_cases hle : maxY ≤ mA
    · rw [maxUpdate_eq acc maxY mA hle, if_pos (And.intro hc hle)]
      rfl
    · rw [if_neg (fun hx : maxY ≤ mA ∧ acc < (↑maxY : WithBot ℝ) => hle hx.1),
          if_neg (fun hx : cond ∧ maxY ≤ mA => hle hx.2)]
      rfl
  · rw [if_neg hc, if_neg (fun hx : cond ∧ maxY ≤ mA => hc hx.1)]
    rfl

theorem trimeshFold_eq (px pz maxAllowedY : ℝ) (l3 : List Tri3) (acc : WithBot ℝ) :
    l3.foldl
        (fun a tri =>
          match triSurfaceY tri px pz with
          | none => a
          | some surfaceY => if surfaceY ≤ maxAllowedY ∧ a < ↑surfaceY then ↑surfaceY else a)
        acc
      = (l3.filterMap fun tri =>
          match triSurfaceY tri px pz with
          | none => none
          | some y => if y ≤ maxAllowedY then some y else none).foldl
            (fun a y => max a ↑y) acc := by
  induction l3 generalizing acc with
  | nil => rfl
  | cons tri rest ih =>
    simp only [List.foldl_cons, List.filterMap_cons]
    rcases hs : triSurfaceY tri px pz with _ | y
    · exact ih acc
    · dsimp only
      by_cases hle : y ≤ maxAllowedY
      · rw [if_pos hle]
        simp only [List.foldl_cons]
        rw [← maxUpdate_eq acc y maxAllowedY hle]
        exact ih _
      · rw [if_neg hle,
          if_neg (fun hx : y ≤ maxAllowedY ∧ acc < (↑y : WithBot ℝ) => hle hx.1)]
        exact ih acc

theorem collHeightStep_eq_fold (px pz maxAllowedY : ℝ) (acc : WithBot ℝ) (c : Collider) :
    collHeightStep px pz maxAllowedY acc c
      = (surfaceHeights px pz maxAllowedY c).foldl (fun a y => max a ↑y) acc := by
  unfold collHeightStep surfaceHeights
  by_cases hmin : c.minY > maxAllowedY
  · rw [if_pos hmin, if_pos hmin]
    rfl
  · rw [if_neg hmin, if_neg hmin]
    clear hmin
    rcases c with ⟨minX, minZ, maxX, maxZ, minY, maxY⟩ | ⟨cx, cz, radius, minY, maxY⟩ |
      ⟨cx, cz, halfW, halfD, cosA, sinA, minY, maxY⟩ | ⟨tris, minY, maxY, t3⟩
    · exact stepBranch_eq _ acc maxY maxAllowedY
    · exact stepBranch_eq _ acc maxY maxAllowedY
    · exact stepBranch_eq _ acc maxY maxAllowedY
    · rcases t3 with _ | l3
      · rfl
      · exact trimeshFold_eq px pz maxAllowedY l3 acc

theorem foldl_max_le (l : List ℝ) (acc : WithBot ℝ) :
    acc ≤ l.foldl (fun a y => max a ↑y) acc := by
  induction l generalizing acc with
  | nil => exact le_refl acc
  | cons y rest ih =>
    simp only [List.foldl_cons]
    exact le_trans (le_max_left acc ↑y) (ih _)

theorem le_foldl_max (l : List ℝ) (y : ℝ) (hy : y ∈ l) :
    ∀ acc : WithBot ℝ, (↑y : WithBot ℝ) ≤ l.foldl (fun a y => max a ↑y) acc := by
  induction l with
  | nil => cases hy
  | cons z rest ih =>
    intro acc
    simp only [List.foldl_cons]
    rcases List.mem_cons.mp hy with rfl | hy'
    · exact le_trans (le_max_right acc ↑y) (foldl_max_le rest _)
    · exact ih hy' _

theorem foldl_max_cases (l : List ℝ) (acc : WithBot ℝ) :
    l.foldl (fun a y => max a ↑y) acc = acc ∨
      ∃ y ∈ l, l.foldl (fun a y => max a ↑y) acc = ↑y := by
  induction l generalizing acc with
  | nil => exact Or.inl rfl
  | cons z rest ih =>
    simp only [List.foldl_cons]
    rcases ih (max acc ↑z) with heq | ⟨y, hy, heq⟩
    · rcases max_choice acc (↑z : WithBot ℝ) with hm | hm
      · exact Or.inl (heq.trans hm)
      · exact Or.inr ⟨z, List.mem_cons_self _ _, heq.trans hm⟩
    · exact Or.inr ⟨y, List.mem_cons_of_mem _ hy, heq⟩

theorem getCollisionHeightAt_eq_fold (s : CollisionState) (px pz playerY stepHeight : ℝ) :
    getCollisionHeightAt s px pz playerY stepHeight
      = (acceptedHeights s px pz playerY stepHeight).foldl (fun a y => max a ↑y) ⊥ := by
  unfold getCollisionHeightAt acceptedHeights
  have fold_eq : ∀ (cands : List ℕ) (acc : WithBot ℝ),
      cands.foldl
        (fun acc i =>
          match s.colliders.get? i with
          | none => acc
          | some c => collHeightStep px pz (playerY + stepHeight) acc c)
        acc
      = ((cands.filterMap s.colliders.get?).flatMap
          (surfaceHeights px pz (playerY + stepHeight))).foldl (fun a y => max a ↑y) acc := by
    intro cands
    induction cands with
    | nil => intro acc; rfl
    | cons i rest ih =>
      intro acc
      simp only [List.foldl_cons, List.filterMap_cons]
      rcases hget : s.colliders.get? i with _ | c
      · exact ih acc
      · dsimp only
        simp only [List.flatMap_cons, List.foldl_append]
        rw [← collHeightStep_eq_fold]
        exact ih _
  by_cases hempty : s.colliders.length = 0
  · rw [if_pos hempty]
    have hce : s.colliders = [] := List.length_eq_zero.mp hempty
    have hnil : ∀ (l : List ℕ), l.filterMap s.colliders.get? = [] := by
      intro l
      induction l with
      | nil => rfl
      | cons j js ihj =>
        rw [List.filterMap_cons_none, ihj]
        rw [hce]
        rfl
    rw [hnil]
    rfl
  · rw [if_neg hempty]
    rcases hq : queryGrid s.spatialGrid (px - PLAYER_RADIUS) (pz - PLAYER_RADIUS)
        (px + PLAYER_RADIUS) (pz + PLAYER_RADIUS) with _ | ⟨i, rest⟩
    · rfl
    · dsimp only
      rw [if_neg (by simp : ¬ ((i :: rest) : List ℕ).length = 0)]
      exact fold_eq (i :: rest) ⊥

/-- C4: getCollisionHeightAt returns -Infinity (⊥) or the maximum accepted
surface height: colliders with minY above playerY + stepHeight offer nothing,
every accepted height is at most playerY + stepHeight, the result bounds every
accepted height from above, and when any height is accepted the result is one
of them (hence the greatest). -/
theorem getCollisionHeightAt_is_max (s : CollisionState) (px pz playerY stepHeight : ℝ) :
    (∀ c, c.minY > playerY + stepHeight →
      surfaceHeights px pz (playerY + stepHeight) c = []) ∧
    (∀ y ∈ acceptedHeights s px pz playerY stepHeight, y ≤ playerY + stepHeight) ∧
    (acceptedHeights s px pz playerY stepHeight = [] →
      getCollisionHeightAt s px pz playerY stepHeight = ⊥) ∧
    (∀ y ∈ acceptedHeights s px pz playerY stepHeight,
      (↑y : WithBot ℝ) ≤ getCollisionHeightAt s px pz playerY stepHeight) ∧
    (getCollisionHeightAt s px pz playerY stepHeight = ⊥ ∨
      ∃ y ∈ acceptedHeights s px pz playerY stepHeight,
        getCollisionHeightAt s px pz playerY stepHeight = ↑y) := by
  refine ⟨?_, ?_, ?_, ?_, ?_⟩
  · intro c hc
    unfold surfaceHeights
    rw [if_pos hc]
  · intro y hy
    obtain ⟨c, _, hyc⟩ := List.mem_flatMap.mp hy
    unfold surfaceHeights at hyc
    by_cases hmin : c.minY > playerY + stepHeight
    · rw [if_pos hmin] at hyc
      cases hyc
    · rw [if_neg hmin] at hyc
      clear hmin
      rcases c with ⟨minX, minZ, maxX, maxZ, minY, maxY⟩ | ⟨cx, cz, radius, minY, maxY⟩ |
        ⟨cx, cz, halfW, halfD, cosA, sinA, minY, maxY⟩ | ⟨tris, minY, maxY, t3⟩
      · dsimp only at hyc
        by_cases hcond : (minX ≤ px ∧ px ≤ maxX ∧ minZ ≤ pz ∧ pz ≤ maxZ) ∧
            maxY ≤ playerY + stepHeight
        · rw [if_pos hcond] at hyc
          rw [List.mem_singleton.mp hyc]
          exact hcond.2
        · rw [if_neg hcond] at hyc
          cases hyc
      · dsimp only at hyc
        by_cases hcond : (px - cx) * (px - cx) + (pz - cz) * (pz - cz) ≤ radius * radius ∧
            maxY ≤ playerY + stepHeight
        · rw [if_pos hcond] at hyc
          rw [List.mem_singleton.mp hyc]
          exact hcond.2
        · rw [if_neg hcond] at hyc
          cases hyc
      · dsimp only at hyc
        by_cases hcond : (-halfW ≤ cosA * (px - cx) - sinA * (pz - cz) ∧
              cosA * (px - cx) - sinA * (pz - cz) ≤ halfW ∧
              -halfD ≤ sinA * (px - cx) + cosA * (pz - cz) ∧
              sinA * (px - cx) + cosA * (pz - cz) ≤ halfD) ∧
            maxY ≤ playerY + stepHeight
        · rw [if_pos hcond] at hyc
          rw [List.mem_singleton.mp hyc]
          exact hcond.2
        · rw [if_neg hcond] at hyc
          cases hyc
      · rcases t3 with _ | l3
        · cases hyc
        · dsimp only at hyc
          obtain ⟨tri, _, htri⟩ := List.mem_filterMap.mp hyc
          rcases hs : triSurfaceY tri px pz with _ | y'
          · rw [hs] at htri
            cases htri
          · rw [hs] at htri
            dsimp only at htri
            by_cases hle : y' ≤ playerY + stepHeight
            · rw [if_pos hle] at htri
              rw [← Option.some.inj htri]
              exact hle
            · rw [if_neg hle] at htri
              cases htri
  · intro hnil
    rw [getCollisionHeightAt_eq_fold, hnil]
    rfl
  · intro y hy
    rw [getCollisionHeightAt_eq_fold]
    exact le_foldl_max _ y hy _
  · rw [getCollisionHeightAt_eq_fold]
    rcases foldl_max_cases (acceptedHeights s px pz playerY stepHeight) ⊥ with heq | hex
    · exact Or.inl heq
    · exact Or.inr hex

end WoV


namespace WoV

/-! ### Single-collider penetration resolution: push-out lemmas -/

theorem aabb_none_of_far (px pz pRadius minX minZ maxX maxZ : ℝ)
    (h : (px - max minX (min px maxX)) * (px - max minX (min px maxX)) +
        (pz - max minZ (min pz maxZ)) * (pz - max minZ (min pz maxZ)) ≥ pRadius * pRadius) :
    testCylinderVsAABB px pz pRadius minX minZ maxX maxZ = none := by
  simp only [testCylinderVsAABB]
  rw [if_pos h]

theorem clamp_shift (lo hi p t : ℝ) (hlh : lo ≤ hi) (ht : 0 ≤ t) :
    max lo (min (p + (p - max lo (min p hi)) * t) hi) = max lo (min p hi) := by
  by_cases hp1 : p < lo
  · rw [min_eq_left (le_of_lt (lt_of_lt_of_le hp1 hlh)), max_eq_left (le_of_lt hp1)]
    have hple : p + (p - lo) * t ≤ p := by nlinarith
    rw [min_eq_left (le_trans hple (le_of_lt (lt_of_lt_of_le hp1 hlh))),
      max_eq_left (le_trans hple (le_of_lt hp1))]
  · push_neg at hp1
    by_cases hp2 : hi < p
    · rw [min_eq_right (le_of_lt hp2), max_eq_right hlh]
      have hpge : p ≤ p + (p - hi) * t := by nlinarith
      rw [min_eq_right (le_trans (le_of_lt hp2) hpge), max_eq_right hlh]
    · push_neg at hp2
      rw [min_eq_left hp2, max_eq_right hp1, sub_self, zero_mul, add_zero,
        min_eq_left hp2, max_eq_right hp1]

theorem radius_add_eps_sq_ge (pRadius eps : ℝ) (hR : 0 < pRadius) (heps : 0 < eps) :
    (pRadius + eps) * (pRadius + eps) ≥ pRadius * pRadius := by nlinarith

theorem aabb_push_clears (px pz pRadius minX minZ maxX maxZ : ℝ)
    (hx : minX ≤ maxX) (hz : minZ ≤ maxZ) (hR : 0 < pRadius)
    (eps : ℝ) (heps : 0 < eps) (h : Hit) (d : ℝ)
    (hh : testCylinderVsAABB px pz pRadius minX minZ maxX maxZ = some h)
    (hd : h.depth = ↑d) :
    testCylinderVsAABB (px + h.nx * (d + eps)) (pz + h.nz * (d + eps)) pRadius
      minX minZ maxX maxZ = none := by
  simp only [testCylinderVsAABB] at hh
  split_ifs at hh with h1 h2 h3 h4 h5
  · -- inside, push left
    obtain rfl : h = ⟨-1, 0, ↑(pRadius + (px - minX))⟩ := (Option.some.inj hh).symm
    dsimp only at hd ⊢
    have hdval : d = pRadius + (px - minX) := (WithTop.coe_inj.mp hd).symm
    subst hdval
    apply aabb_none_of_far
    have hpx' : px + -1 * (pRadius + (px - minX) + eps) = minX - pRadius - eps := by ring
    rw [hpx']
    have hclx : max minX (min (minX - pRadius - eps) maxX) = minX := by
      rw [min_eq_left (by linarith), max_eq_left (by linarith)]
    rw [hclx]
    have hz0 : pz + 0 * (pRadius + (px - minX) + eps) = pz := by ring
    rw [hz0]
    nlinarith [sq_nonneg (pz - max minZ (min pz maxZ)), sq_nonneg (pRadius + eps)]
  · -- inside, push right
    obtain rfl : h = ⟨1, 0, ↑(pRadius + (maxX - px))⟩ := (Option.some.inj hh).symm
    dsimp only at hd ⊢
    have hdval : d = pRadius + (maxX - px) := (WithTop.coe_inj.mp hd).symm
    subst hdval
    apply aabb_none_of_far
    have hpx' : px + 1 * (pRadius + (maxX - px) + eps) = maxX + pRadius + eps := by ring
    rw [hpx']
    have hclx : max minX (min (maxX + pRadius + eps) maxX) = maxX := by
      rw [min_eq_right (by linarith), max_eq_right hx]
    rw [hclx]
    have hz0 : pz + 0 * (pRadius + (maxX - px) + eps) = pz := by ring
    rw [hz0]
    nlinarith [sq_nonneg (pz - max minZ (min pz maxZ))]
  · -- inside, push back
    obtain rfl : h = ⟨0, -1, ↑(pRadius + (pz - minZ))⟩ := (Option.some.inj hh).symm
    dsimp only at hd ⊢
    have hdval : d = pRadius + (pz - minZ) := (WithTop.coe_inj.mp hd).symm
    subst hdval
    apply aabb_none_of_far
    have hpz' : pz + -1 * (pRadius + (pz - minZ) + eps) = minZ - pRadius - eps := by ring
    rw [hpz']
    have hclz : max minZ (min (minZ - pRadius - eps) maxZ) = minZ := by
      rw [min_eq_left (by linarith), max_eq_left (by linarith)]
    rw [hclz]
    have hx0 : px + 0 * (pRadius + (pz - minZ) + eps) = px := by ring
    rw [hx0]
    nlinarith [sq_nonneg (px - max minX (min px maxX))]
  · -- inside, push front
    obtain rfl : h = ⟨0, 1, ↑(pRadius + (maxZ - pz))⟩ := (Option.some.inj hh).symm
    dsimp only at hd ⊢
    have hdval : d = pRadius + (maxZ - pz) := (WithTop.coe_inj.mp hd).symm
    subst hdval
    apply aabb_none_of_far
    have hpz' : pz + 1 * (pRadius + (maxZ - pz) + eps) = maxZ + pRadius + eps := by ring
    rw [hpz']
    have hclz : max minZ (min (maxZ + pRadius + eps) maxZ) = maxZ := by
      rw [min_eq_right (by linarith), max_eq_right hz]
    rw [hclz]
    have hx0 : px + 0 * (pRadius + (maxZ - pz) + eps) = px := by ring
    rw [hx0]
    nlinarith [sq_nonneg (px - max minX (min px maxX))]
  · -- outside
    obtain rfl : h = ⟨(px - max minX (min px maxX)) /
        Real.sqrt ((px - max minX (min px maxX)) * (px - max minX (min px maxX)) +
          (pz - max minZ (min pz maxZ)) * (pz - max minZ (min pz maxZ))),
        (pz - max minZ (min pz maxZ)) /
        Real.sqrt ((px - max minX (min px maxX)) * (px - max minX (min px maxX)) +
          (pz - max minZ (min pz maxZ)) * (pz - max minZ (min pz maxZ))),
        ↑(pRadius - Real.sqrt ((px - max minX (min px maxX)) * (px - max minX (min px maxX)) +
          (pz - max minZ (min pz maxZ)) * (pz - max minZ (min pz maxZ))))⟩ :=
      (Option.some.inj hh).symm
    dsimp only at hd ⊢
    push_neg at h1 h2
    set clX := max minX (min px maxX) with hclX
    set clZ := max minZ (min pz maxZ) with hclZ
    set distSq := (px - clX) * (px - clX) + (pz - clZ) * (pz - clZ) with hdistSq
    set dist := Real.sqrt distSq with hdist
    have hdval : d = pRadius - dist := (WithTop.coe_inj.mp hd).symm
    subst hdval
    have hdsnn : 0 ≤ distSq := by positivity
    have hdspos : 0 < distSq := lt_of_lt_of_le (by norm_num) h2
    have hdistpos : 0 < dist := Real.sqrt_pos.mpr hdspos
    have hdist2 : dist * dist = distSq := Real.mul_self_sqrt hdsnn
    have hdistlt : dist < pRadius := by
      nlinarith [hdist2, hdistpos]
    set t := (pRadius - dist + eps) / dist with hT
    have htnn : 0 ≤ t := by
      apply div_nonneg _ (le_of_lt hdistpos)
      linarith
    have hkey : (1 + t) * dist = pRadius + eps := by
      field_simp [hT]
      ring
    have hrwx : px + (px - clX) / dist * (pRadius - dist + eps) = px + (px - clX) * t := by
      rw [hT]
      ring
    have hrwz : pz + (pz - clZ) / dist * (pRadius - dist + eps) = pz + (pz - clZ) * t := by
      rw [hT]
      ring
    rw [hrwx, hrwz]
    apply aabb_none_of_far
    have hclx' : max minX (min (px + (px - clX) * t) maxX) = clX := by
      rw [hclX]
      exact clamp_shift minX maxX px t hx htnn
    have hclz' : max minZ (min (pz + (pz - clZ) * t) maxZ) = clZ := by
      rw [hclZ]
      exact clamp_shift minZ maxZ pz t hz htnn
    rw [hclx', hclz']
    have hcalc : (px + (px - clX) * t - clX) * (px + (px - clX) * t - clX) +
        (pz + (pz - clZ) * t - clZ) * (pz + (pz - clZ) * t - clZ)
        = ((1 + t) * dist) * ((1 + t) * dist) := by
      have : (px + (px - clX) * t - clX) * (px + (px - clX) * t - clX) +
          (pz + (pz - clZ) * t - clZ) * (pz + (pz - clZ) * t - clZ)
          = (1 + t) * (1 + t) * distSq := by
        rw [hdistSq]
        ring
      rw [this, ← hdist2]
      ring
    rw [hcalc, hkey]
    exact radius_add_eps_sq_ge pRadius eps hR heps

theorem cyl_none_of_far (px pz pRadius cx cz cRadius : ℝ)
    (h : (px - cx) * (px - cx) + (pz - cz) * (pz - cz) ≥
        (pRadius + cRadius) * (pRadius + cRadius)) :
    testCylinderVsCylinder px pz pRadius cx cz cRadius = none := by
  simp only [testCylinderVsCylinder]
  rw [if_pos h]

theorem cyl_push_clears (px pz pRadius cx cz cRadius : ℝ)
    (hr : 0 ≤ cRadius) (hR : 0 < pRadius)
    (eps : ℝ) (heps : 0 < eps) (heps4 : (1e-4 : ℝ) ≤ eps) (h : Hit) (d : ℝ)
    (hh : testCylinderVsCylinder px pz pRadius cx cz cRadius = some h)
    (hd : h.depth = ↑d) :
    testCylinderVsCylinder (px + h.nx * (d + eps)) (pz + h.nz * (d + eps)) pRadius
      cx cz cRadius = none := by
  simp only [testCylinderVsCylinder] at hh
  split_ifs at hh with h1 h2
  · -- exact overlap
    obtain rfl : h = ⟨1, 0, ↑(pRadius + cRadius)⟩ := (Option.some.inj hh).symm
    dsimp only at hd ⊢
    have hdval : d = pRadius + cRadius := (WithTop.coe_inj.mp hd).symm
    subst hdval
    apply cyl_none_of_far
    have hdxsq : (px - cx) * (px - cx) < 1e-8 := by nlinarith [sq_nonneg (pz - cz)]
    have hdxgt : -1e-4 < px - cx := by nlinarith
    have hz0 : pz + 0 * (pRadius + cRadius + eps) = pz := by ring
    rw [hz0]
    have hpos : (0 : ℝ) < px - cx + eps := by linarith
    have hpos2 : (0 : ℝ) < px - cx + 2 * (pRadius + cRadius) + eps := by linarith
    nlinarith [sq_nonneg (pz - cz), mul_pos hpos hpos2]
  · -- outside
    push_neg at h1 h2
    obtain rfl : h = ⟨(px - cx) / Real.sqrt ((px - cx) * (px - cx) + (pz - cz) * (pz - cz)),
        (pz - cz) / Real.sqrt ((px - cx) * (px - cx) + (pz - cz) * (pz - cz)),
        ↑(pRadius + cRadius -
          Real.sqrt ((px - cx) * (px - cx) + (pz - cz) * (pz - cz)))⟩ :=
      (Option.some.inj hh).symm
    dsimp only at hd ⊢
    set distSq := (px - cx) * (px - cx) + (pz - cz) * (pz - cz) with hdistSq
    set dist := Real.sqrt distSq with hdist
    have hdval : d = pRadius + cRadius - dist := (WithTop.coe_inj.mp hd).symm
    subst hdval
    have hdsnn : 0 ≤ distSq := by positivity
    have hdspos : 0 < distSq := lt_of_lt_of_le (by norm_num) h2
    have hdistpos : 0 < dist := Real.sqrt_pos.mpr hdspos
    have hdist2 : dist * dist = distSq := Real.mul_self_sqrt hdsnn
    have hsumpos : 0 < pRadius + cRadius := by linarith
    have hdistlt : dist < pRadius + cRadius := by nlinarith [hdist2, hdistpos]
    set t := (pRadius + cRadius - dist + eps) / dist with hT
    have htnn : 0 ≤ t := by
      apply div_nonneg _ (le_of_lt hdistpos)
      linarith
    have hkey : (1 + t) * dist = pRadius + cRadius + eps := by
      field_simp [hT]
      ring
    have hrwx : px + (px - cx) / dist * (pRadius + cRadius - dist + eps)
        = px + (px - cx) * t := by
      rw [hT]
      ring
    have hrwz : pz + (pz - cz) / dist * (pRadius + cRadius - dist + eps)
        = pz + (pz - cz) * t := by
      rw [hT]
      ring
    rw [hrwx, hrwz]
    apply cyl_none_of_far
    have hcalc : (px + (px - cx) * t - cx) * (px + (px - cx) * t - cx) +
        (pz + (pz - cz) * t - cz) * (pz + (pz - cz) * t - cz)
        = ((1 + t) * dist) * ((1 + t) * dist) := by
      have hstep : (px + (px - cx) * t - cx) * (px + (px - cx) * t - cx) +
          (pz + (pz - cz) * t - cz) * (pz + (pz - cz) * t - cz)
          = (1 + t) * (1 + t) * distSq := by
        rw [hdistSq]
        ring
      rw [hstep, ← hdist2]
      ring
    rw [hcalc, hkey]
    exact radius_add_eps_sq_ge (pRadius + cRadius) eps hsumpos heps

theorem obb_push_clears (px pz pRadius cx cz halfW halfD ca sa : ℝ)
    (hhw : 0 ≤ halfW) (hhd : 0 ≤ halfD) (hunit : ca * ca + sa * sa = 1)
    (hR : 0 < pRadius) (eps : ℝ) (heps : 0 < eps) (h : Hit) (d : ℝ)
    (hh : testCylinderVsOBB px pz pRadius cx cz halfW halfD ca sa = some h)
    (hd : h.depth = ↑d) :
    testCylinderVsOBB (px + h.nx * (d + eps)) (pz + h.nz * (d + eps)) pRadius
      cx cz halfW halfD ca sa = none := by
  simp only [testCylinderVsOBB] at hh ⊢
  rcases hinner : testCylinderVsAABB (ca * (px - cx) - sa * (pz - cz))
      (sa * (px - cx) + ca * (pz - cz)) pRadius (-halfW) (-halfD) halfW halfD with _ | hl
  · rw [hinner] at hh
    cases hh
  · rw [hinner] at hh
    obtain rfl : h = ⟨ca * hl.nx + sa * hl.nz, -sa * hl.nx + ca * hl.nz, hl.depth⟩ :=
      (Option.some.inj hh).symm
    dsimp only at hd ⊢
    have hlx' : ca * (px + (ca * hl.nx + sa * hl.nz) * (d + eps) - cx)
        - sa * (pz + (-sa * hl.nx + ca * hl.nz) * (d + eps) - cz)
        = (ca * (px - cx) - sa * (pz - cz)) + hl.nx * (d + eps) := by
      linear_combination hl.nx * (d + eps) * hunit
    have hlz' : sa * (px + (ca * hl.nx + sa * hl.nz) * (d + eps) - cx)
        + ca * (pz + (-sa * hl.nx + ca * hl.nz) * (d + eps) - cz)
        = (sa * (px - cx) + ca * (pz - cz)) + hl.nz * (d + eps) := by
      linear_combination hl.nz * (d + eps) * hunit
    rw [hlx', hlz']
    rw [aabb_push_clears (ca * (px - cx) - sa * (pz - cz)) (sa * (px - cx) + ca * (pz - cz))
      pRadius (-halfW) (-halfD) halfW halfD (by linarith) (by linarith) hR eps heps hl d
      hinner hd]


end WoV

namespace WoV

/-! ### Single-collider penetration resolution: broad-phase coverage -/


theorem aabb_hit_near (px pz pRadius minX minZ maxX maxZ : ℝ)
    (hx : minX ≤ maxX) (hz : minZ ≤ maxZ) (h : Hit)
    (hh : testCylinderVsAABB px pz pRadius minX minZ maxX maxZ = some h) :
    ∃ qx qz, minX ≤ qx ∧ qx ≤ maxX ∧ minZ ≤ qz ∧ qz ≤ maxZ ∧
      (qx - px) * (qx - px) + (qz - pz) * (qz - pz) < pRadius * pRadius := by
  have hlt : ¬ ((px - max minX (min px maxX)) * (px - max minX (min px maxX)) +
      (pz - max minZ (min pz maxZ)) * (pz - max minZ (min pz maxZ)) ≥ pRadius * pRadius) := by
    intro hge
    rw [aabb_none_of_far px pz pRadius minX minZ maxX maxZ hge] at hh
    cases hh
  push_neg at hlt
  refine ⟨max minX (min px maxX), max minZ (min pz maxZ), le_max_left _ _,
    max_le hx (min_le_right _ _), le_max_left _ _, max_le hz (min_le_right _ _), ?_⟩
  nlinarith [hlt]

theorem cyl_hit_near (px pz pRadius cx cz cRadius : ℝ)
    (hr : 0 ≤ cRadius) (hR : 0 < pRadius) (h : Hit)
    (hh : testCylinderVsCylinder px pz pRadius cx cz cRadius = some h) :
    ∃ qx qz, cx - cRadius ≤ qx ∧ qx ≤ cx + cRadius ∧ cz - cRadius ≤ qz ∧ qz ≤ cz + cRadius ∧
      (qx - px) * (qx - px) + (qz - pz) * (qz - pz) < pRadius * pRadius := by
  have hlt : ¬ ((px - cx) * (px - cx) + (pz - cz) * (pz - cz) ≥
      (pRadius + cRadius) * (pRadius + cRadius)) := by
    intro hge
    rw [cyl_none_of_far px pz pRadius cx cz cRadius hge] at hh
    cases hh
  push_neg at hlt
  set distSq := (px - cx) * (px - cx) + (pz - cz) * (pz - cz) with hdistSq
  set dist := Real.sqrt distSq with hdist
  have hdsnn : 0 ≤ distSq := by
    rw [hdistSq]
    exact add_nonneg (mul_self_nonneg _) (mul_self_nonneg _)
  have hdistnn : 0 ≤ dist := Real.sqrt_nonneg _
  have hdist2 : dist * dist = distSq := Real.mul_self_sqrt hdsnn
  have hdxle : (px - cx) * (px - cx) ≤ dist * dist := by nlinarith [sq_nonneg (pz - cz)]
  have hdzle : (pz - cz) * (pz - cz) ≤ dist * dist := by nlinarith [sq_nonneg (px - cx)]
  have hdistlt : dist < pRadius + cRadius := by nlinarith [hdist2]
  rcases le_or_lt dist cRadius with hcase | hcase
  · -- the player center itself lies inside the disc
    refine ⟨px, pz, ?_, ?_, ?_, ?_, ?_⟩
    · nlinarith
    · nlinarith
    · nlinarith
    · nlinarith
    · nlinarith
  · -- project the center onto the rim
    have hdistpos : 0 < dist := lt_of_le_of_lt hr hcase
    have hbound : ∀ u : ℝ, u * u ≤ dist * dist →
        -(cRadius) ≤ u * (cRadius / dist) ∧ u * (cRadius / dist) ≤ cRadius := by
      intro u hu
      have h1 : -dist ≤ u := by nlinarith
      have h2 : u ≤ dist := by nlinarith
      have hrw : u * (cRadius / dist) = u * cRadius / dist := by ring
      constructor
      · rw [hrw, le_div_iff hdistpos]
        nlinarith [mul_nonneg (show (0:ℝ) ≤ u + dist by linarith) hr]
      · rw [hrw, div_le_iff hdistpos]
        nlinarith [mul_nonneg (show (0:ℝ) ≤ dist - u by linarith) hr]
    obtain ⟨hbx1, hbx2⟩ := hbound (px - cx) hdxle
    obtain ⟨hbz1, hbz2⟩ := hbound (pz - cz) hdzle
    refine ⟨cx + (px - cx) * (cRadius / dist), cz + (pz - cz) * (cRadius / dist),
      by linarith, by linarith, by linarith, by linarith, ?_⟩
    have hcalc : (cx + (px - cx) * (cRadius / dist) - px) * (cx + (px - cx) * (cRadius / dist) - px)
        + (cz + (pz - cz) * (cRadius / dist) - pz) * (cz + (pz - cz) * (cRadius / dist) - pz)
        = (dist - cRadius) * (dist - cRadius) := by
      have hstep : (cx + (px - cx) * (cRadius / dist) - px) * (cx + (px - cx) * (cRadius / dist) - px)
          + (cz + (pz - cz) * (cRadius / dist) - pz) * (cz + (pz - cz) * (cRadius / dist) - pz)
          = (cRadius / dist - 1) * (cRadius / dist - 1) * distSq := by
        rw [hdistSq]
        ring
      rw [hstep, ← hdist2]
      field_simp
      ring
    rw [hcalc]
    have h0 : 0 < dist - cRadius := by linarith
    have h1 : dist - cRadius < pRadius := by linarith
    have hA : (dist - cRadius) * (dist - cRadius) < (dist - cRadius) * pRadius :=
      mul_lt_mul_of_pos_left h1 h0
    have hB : (dist - cRadius) * pRadius < pRadius * pRadius :=
      mul_lt_mul_of_pos_right h1 hR
    linarith

end WoV

namespace WoV

theorem obb_hit_near (px pz pRadius cx cz halfW halfD ca sa : ℝ)
    (hhw : 0 ≤ halfW) (hhd : 0 ≤ halfD) (hunit : ca * ca + sa * sa = 1) (h : Hit)
    (hh : testCylinderVsOBB px pz pRadius cx cz halfW halfD ca sa = some h) :
    ∃ qx qz, cx - (|halfW * ca| + |halfD * sa|) ≤ qx ∧ qx ≤ cx + (|halfW * ca| + |halfD * sa|) ∧
      cz - (|halfW * sa| + |halfD * ca|) ≤ qz ∧ qz ≤ cz + (|halfW * sa| + |halfD * ca|) ∧
      (qx - px) * (qx - px) + (qz - pz) * (qz - pz) < pRadius * pRadius := by
  simp only [testCylinderVsOBB] at hh
  rcases hinner : testCylinderVsAABB (ca * (px - cx) - sa * (pz - cz))
      (sa * (px - cx) + ca * (pz - cz)) pRadius (-halfW) (-halfD) halfW halfD with _ | hl
  · rw [hinner] at hh
    cases hh
  · obtain ⟨qlx, qlz, hb1, hb2, hb3, hb4, hnear⟩ :=
      aabb_hit_near _ _ pRadius (-halfW) (-halfD) halfW halfD (by linarith) (by linarith)
        hl hinner
    refine ⟨cx + (ca * qlx + sa * qlz), cz + (-sa * qlx + ca * qlz), ?_, ?_, ?_, ?_, ?_⟩
    · have hax : |qlx| ≤ halfW := abs_le.mpr ⟨by linarith, hb2⟩
      have haz : |qlz| ≤ halfD := abs_le.mpr ⟨by linarith, hb4⟩
      have habs : |ca * qlx + sa * qlz| ≤ |halfW * ca| + |halfD * sa| := by
        calc |ca * qlx + sa * qlz| ≤ |ca * qlx| + |sa * qlz| := abs_add _ _
          _ = |ca| * |qlx| + |sa| * |qlz| := by rw [abs_mul, abs_mul]
          _ ≤ |ca| * halfW + |sa| * halfD := by
              have := mul_le_mul_of_nonneg_left hax (abs_nonneg ca)
              have := mul_le_mul_of_nonneg_left haz (abs_nonneg sa)
              linarith
          _ = |halfW * ca| + |halfD * sa| := by
              rw [abs_mul, abs_mul, abs_of_nonneg hhw, abs_of_nonneg hhd]
              ring
      have := (abs_le.mp habs).1
      linarith
    · have hax : |qlx| ≤ halfW := abs_le.mpr ⟨by linarith, hb2⟩
      have haz : |qlz| ≤ halfD := abs_le.mpr ⟨by linarith, hb4⟩
      have habs : |ca * qlx + sa * qlz| ≤ |halfW * ca| + |halfD * sa| := by
        calc |ca * qlx + sa * qlz| ≤ |ca * qlx| + |sa * qlz| := abs_add _ _
          _ = |ca| * |qlx| + |sa| * |qlz| := by rw [abs_mul, abs_mul]
          _ ≤ |ca| * halfW + |sa| * halfD := by
              have := mul_le_mul_of_nonneg_left hax (abs_nonneg ca)
              have := mul_le_mul_of_nonneg_left haz (abs_nonneg sa)
              linarith
          _ = |halfW * ca| + |halfD * sa| := by
              rw [abs_mul, abs_mul, abs_of_nonneg hhw, abs_of_nonneg hhd]
              ring
      have := (abs_le.mp habs).2
      linarith
    · have hax : |qlx| ≤ halfW := abs_le.mpr ⟨by linarith, hb2⟩
      have haz : |qlz| ≤ halfD := abs_le.mpr ⟨by linarith, hb4⟩
      have habs : |(-sa) * qlx + ca * qlz| ≤ |halfW * sa| + |halfD * ca| := by
        calc |(-sa) * qlx + ca * qlz| ≤ |(-sa) * qlx| + |ca * qlz| := abs_add _ _
          _ = |sa| * |qlx| + |ca| * |qlz| := by rw [abs_mul, abs_mul, abs_neg]
          _ ≤ |sa| * halfW + |ca| * halfD := by
              have := mul_le_mul_of_nonneg_left hax (abs_nonneg sa)
              have := mul_le_mul_of_nonneg_left haz (abs_nonneg ca)
              linarith
          _ = |halfW * sa| + |halfD * ca| := by
              rw [abs_mul, abs_mul, abs_of_nonneg hhw, abs_of_nonneg hhd]
              ring
      have := (abs_le.mp habs).1
      have hrw : -sa * qlx + ca * qlz = (-sa) * qlx + ca * qlz := by ring
      rw [hrw]
      linarith
    · have hax : |qlx| ≤ halfW := abs_le.mpr ⟨by linarith, hb2⟩
      have haz : |qlz| ≤ halfD := abs_le.mpr ⟨by linarith, hb4⟩
      have habs : |(-sa) * qlx + ca * qlz| ≤ |halfW * sa| + |halfD * ca| := by
        calc |(-sa) * qlx + ca * qlz| ≤ |(-sa) * qlx| + |ca * qlz| := abs_add _ _
          _ = |sa| * |qlx| + |ca| * |qlz| := by rw [abs_mul, abs_mul, abs_neg]
          _ ≤ |sa| * halfW + |ca| * halfD := by
              have := mul_le_mul_of_nonneg_left hax (abs_nonneg sa)
              have := mul_le_mul_of_nonneg_left haz (abs_nonneg ca)
              linarith
          _ = |halfW * sa| + |halfD * ca| := by
              rw [abs_mul, abs_mul, abs_of_nonneg hhw, abs_of_nonneg hhd]
              ring
      have := (abs_le.mp habs).2
      have hrw : -sa * qlx + ca * qlz = (-sa) * qlx + ca * qlz := by ring
      rw [hrw]
      linarith
    · have hiso : (cx + (ca * qlx + sa * qlz) - px) * (cx + (ca * qlx + sa * qlz) - px) +
          (cz + (-sa * qlx + ca * qlz) - pz) * (cz + (-sa * qlx + ca * qlz) - pz)
          = (qlx - (ca * (px - cx) - sa * (pz - cz))) * (qlx - (ca * (px - cx) - sa * (pz - cz)))
            + (qlz - (sa * (px - cx) + ca * (pz - cz))) * (qlz - (sa * (px - cx) + ca * (pz - cz))) := by
        have hqx : cx + (ca * qlx + sa * qlz) - px
            = ca * (qlx - (ca * (px - cx) - sa * (pz - cz)))
              + sa * (qlz - (sa * (px - cx) + ca * (pz - cz))) := by
          linear_combination (px - cx) * hunit
        have hqz : cz + (-sa * qlx + ca * qlz) - pz
            = -sa * (qlx - (ca * (px - cx) - sa * (pz - cz)))
              + ca * (qlz - (sa * (px - cx) + ca * (pz - cz))) := by
          linear_combination (pz - cz) * hunit
        rw [hqx, hqz]
        linear_combination ((qlx - (ca * (px - cx) - sa * (pz - cz)))
          * (qlx - (ca * (px - cx) - sa * (pz - cz)))
          + (qlz - (sa * (px - cx) + ca * (pz - cz)))
          * (qlz - (sa * (px - cx) + ca * (pz - cz)))) * hunit
      rw [hiso]
      exact hnear

end WoV

namespace WoV

theorem floor_cell_mem (a b q : ℝ) (h1 : a ≤ q) (h2 : q ≤ b) :
    ⌊q / CELL_SIZE⌋ ∈ cellRange a b := by
  rw [cellRange, mem_intRange]
  have hpos : (0 : ℝ) < CELL_SIZE := by norm_num [CELL_SIZE]
  constructor
  · exact Int.floor_le_floor ((div_le_div_iff_of_pos_right hpos).mpr h1)
  · exact Int.floor_le_floor ((div_le_div_iff_of_pos_right hpos).mpr h2)

end WoV

namespace WoV

theorem idx_mem_queryGrid_of_point (g : ℤ → List ℕ) (idx : ℕ)
    (a b c' d qMinX qMinZ qMaxX qMaxZ qx qz : ℝ)
    (hax : a ≤ qx) (hxc : qx ≤ c') (hbz : b ≤ qz) (hzd : qz ≤ d)
    (hq1 : qMinX ≤ qx) (hq2 : qx ≤ qMaxX) (hq3 : qMinZ ≤ qz) (hq4 : qz ≤ qMaxZ) :
    idx ∈ queryGrid (insertIntoGrid g idx a b c' d) qMinX qMinZ qMaxX qMaxZ :=
  mem_queryGrid.mpr ⟨⌊qx / CELL_SIZE⌋, floor_cell_mem _ _ _ hq1 hq2,
    ⌊qz / CELL_SIZE⌋, floor_cell_mem _ _ _ hq3 hq4,
    self_mem_insertIntoGrid (floor_cell_mem _ _ _ hax hxc) (floor_cell_mem _ _ _ hbz hzd)⟩

theorem aabb_depth_coe (px pz pRadius minX minZ maxX maxZ : ℝ) (h : Hit)
    (hh : testCylinderVsAABB px pz pRadius minX minZ maxX maxZ = some h) :
    ∃ dd : ℝ, h.depth = ↑dd := by
  simp only [testCylinderVsAABB] at hh
  split_ifs at hh
  · exact ⟨pRadius + (px - minX), by rw [← (Option.some.inj hh)]⟩
  · exact ⟨pRadius + (maxX - px), by rw [← (Option.some.inj hh)]⟩
  · exact ⟨pRadius + (pz - minZ), by rw [← (Option.some.inj hh)]⟩
  · exact ⟨pRadius + (maxZ - pz), by rw [← (Option.some.inj hh)]⟩
  · refine ⟨pRadius - Real.sqrt ((px - max minX (min px maxX)) * (px - max minX (min px maxX)) +
      (pz - max minZ (min pz maxZ)) * (pz - max minZ (min pz maxZ))), ?_⟩
    rw [← (Option.some.inj hh)]

theorem cyl_depth_coe (px pz pRadius cx cz cRadius : ℝ) (h : Hit)
    (hh : testCylinderVsCylinder px pz pRadius cx cz cRadius = some h) :
    ∃ dd : ℝ, h.depth = ↑dd := by
  simp only [testCylinderVsCylinder] at hh
  split_ifs at hh
  · exact ⟨pRadius + cRadius, by rw [← (Option.some.inj hh)]⟩
  · refine ⟨pRadius + cRadius - Real.sqrt ((px - cx) * (px - cx) + (pz - cz) * (pz - cz)), ?_⟩
    rw [← (Option.some.inj hh)]

theorem obb_depth_coe (px pz pRadius cx cz halfW halfD ca sa : ℝ) (h : Hit)
    (hh : testCylinderVsOBB px pz pRadius cx cz halfW halfD ca sa = some h) :
    ∃ dd : ℝ, h.depth = ↑dd := by
  simp only [testCylinderVsOBB] at hh
  rcases hinner : testCylinderVsAABB (ca * (px - cx) - sa * (pz - cz))
      (sa * (px - cx) + ca * (pz - cz)) pRadius (-halfW) (-halfD) halfW halfD with _ | hl
  · rw [hinner] at hh
    cases hh
  · rw [hinner] at hh
    obtain ⟨dd, hdd⟩ := aabb_depth_coe _ _ pRadius (-halfW) (-halfD) halfW halfD hl hinner
    obtain rfl : h = ⟨ca * hl.nx + sa * hl.nz, -sa * hl.nx + ca * hl.nz, hl.depth⟩ :=
      (Option.some.inj hh).symm
    exact ⟨dd, hdd⟩

end WoV


namespace WoV

theorem colliderTest_depth_coe (c : Collider) (hc : convexWellFormed c) (x z : ℝ) (h : Hit)
    (hh : colliderTest c x z = some h) : ∃ dd : ℝ, h.depth = ↑dd := by
  rcases c with ⟨minX, minZ, maxX, maxZ, minY, maxY⟩ | ⟨cx, cz, radius, minY, maxY⟩ |
    ⟨cx, cz, halfW, halfD, cosA, sinA, minY, maxY⟩ | ⟨tris, minY, maxY, t3⟩
  · exact aabb_depth_coe x z PLAYER_RADIUS minX minZ maxX maxZ h hh
  · exact cyl_depth_coe x z PLAYER_RADIUS cx cz radius h hh
  · exact obb_depth_coe x z PLAYER_RADIUS cx cz halfW halfD cosA sinA h hh
  · cases hc

theorem colliderTest_push_clears (c : Collider) (hc : convexWellFormed c) (x z : ℝ)
    (h : Hit) (d : ℝ) (hh : colliderTest c x z = some h) (hd : h.depth = ↑d) :
    colliderTest c (x + h.nx * (d + PUSH_EPSILON)) (z + h.nz * (d + PUSH_EPSILON)) = none := by
  have hR : (0 : ℝ) < PLAYER_RADIUS := by norm_num [PLAYER_RADIUS]
  have heps : (0 : ℝ) < PUSH_EPSILON := by norm_num [PUSH_EPSILON]
  have heps4 : (1e-4 : ℝ) ≤ PUSH_EPSILON := by norm_num [PUSH_EPSILON]
  rcases c with ⟨minX, minZ, maxX, maxZ, minY, maxY⟩ | ⟨cx, cz, radius, minY, maxY⟩ |
    ⟨cx, cz, halfW, halfD, cosA, sinA, minY, maxY⟩ | ⟨tris, minY, maxY, t3⟩
  · exact aabb_push_clears x z PLAYER_RADIUS minX minZ maxX maxZ hc.1 hc.2 hR
      PUSH_EPSILON heps h d hh hd
  · exact cyl_push_clears x z PLAYER_RADIUS cx cz radius hc hR PUSH_EPSILON heps heps4 h d hh hd
  · exact obb_push_clears x z PLAYER_RADIUS cx cz halfW halfD cosA sinA hc.1 hc.2.1 hc.2.2
      hR PUSH_EPSILON heps h d hh hd
  · cases hc

theorem zero_mem_candidates (c : Collider) (hc : convexWellFormed c)
    (sx sz ex ez : ℝ) (h : Hit) (hh : colliderTest c ex ez = some h) :
    0 ∈ queryGrid (registerOne c).spatialGrid (min sx ex - PLAYER_RADIUS)
      (min sz ez - PLAYER_RADIUS) (max sx ex + PLAYER_RADIUS) (max sz ez + PLAYER_RADIUS) := by
  have hR : (0 : ℝ) < PLAYER_RADIUS := by norm_num [PLAYER_RADIUS]
  rcases c with ⟨minX, minZ, maxX, maxZ, minY, maxY⟩ | ⟨ccx, ccz, radius, minY, maxY⟩ |
    ⟨ccx, ccz, halfW, halfD, cosA, sinA, minY, maxY⟩ | ⟨tris, minY, maxY, t3⟩
  · obtain ⟨qx, qz, hb1, hb2, hb3, hb4, hnear⟩ :=
      aabb_hit_near ex ez PLAYER_RADIUS minX minZ maxX maxZ hc.1 hc.2 h hh
    have hqx : (qx - ex) * (qx - ex) < PLAYER_RADIUS * PLAYER_RADIUS := by
      nlinarith [sq_nonneg (qz - ez)]
    have hqz : (qz - ez) * (qz - ez) < PLAYER_RADIUS * PLAYER_RADIUS := by
      nlinarith [sq_nonneg (qx - ex)]
    have hx1 : ex - PLAYER_RADIUS ≤ qx := by nlinarith
    have hx2 : qx ≤ ex + PLAYER_RADIUS := by nlinarith
    have hz1 : ez - PLAYER_RADIUS ≤ qz := by nlinarith
    have hz2 : qz ≤ ez + PLAYER_RADIUS := by nlinarith
    exact idx_mem_queryGrid_of_point _ 0 minX minZ maxX maxZ _ _ _ _ qx qz hb1 hb2 hb3 hb4
      (by have := min_le_right sx ex; linarith)
      (by have := le_max_right sx ex; linarith)
      (by have := min_le_right sz ez; linarith)
      (by have := le_max_right sz ez; linarith)
  · obtain ⟨qx, qz, hb1, hb2, hb3, hb4, hnear⟩ :=
      cyl_hit_near ex ez PLAYER_RADIUS ccx ccz radius hc hR h hh
    have hqx : (qx - ex) * (qx - ex) < PLAYER_RADIUS * PLAYER_RADIUS := by
      nlinarith [sq_nonneg (qz - ez)]
    have hqz : (qz - ez) * (qz - ez) < PLAYER_RADIUS * PLAYER_RADIUS := by
      nlinarith [sq_nonneg (qx - ex)]
    have hx1 : ex - PLAYER_RADIUS ≤ qx := by nlinarith
    have hx2 : qx ≤ ex + PLAYER_RADIUS := by nlinarith
    have hz1 : ez - PLAYER_RADIUS ≤ qz := by nlinarith
    have hz2 : qz ≤ ez + PLAYER_RADIUS := by nlinarith
    exact idx_mem_queryGrid_of_point _ 0 (ccx - radius) (ccz - radius) (ccx + radius)
      (ccz + radius) _ _ _ _ qx qz hb1 hb2 hb3 hb4
      (by have := min_le_right sx ex; linarith)
      (by have := le_max_right sx ex; linarith)
      (by have := min_le_right sz ez; linarith)
      (by have := le_max_right sz ez; linarith)
  · obtain ⟨qx, qz, hb1, hb2, hb3, hb4, hnear⟩ :=
      obb_hit_near ex ez PLAYER_RADIUS ccx ccz halfW halfD cosA sinA hc.1 hc.2.1 hc.2.2 h hh
    have hqx : (qx - ex) * (qx - ex) < PLAYER_RADIUS * PLAYER_RADIUS := by
      nlinarith [sq_nonneg (qz - ez)]
    have hqz : (qz - ez) * (qz - ez) < PLAYER_RADIUS * PLAYER_RADIUS := by
      nlinarith [sq_nonneg (qx - ex)]
    have hx1 : ex - PLAYER_RADIUS ≤ qx := by nlinarith
    have hx2 : qx ≤ ex + PLAYER_RADIUS := by nlinarith
    have hz1 : ez - PLAYER_RADIUS ≤ qz := by nlinarith
    have hz2 : qz ≤ ez + PLAYER_RADIUS := by nlinarith
    exact idx_mem_queryGrid_of_point _ 0
      (ccx - (|halfW * cosA| + |halfD * sinA|)) (ccz - (|halfW * sinA| + |halfD * cosA|))
      (ccx + (|halfW * cosA| + |halfD * sinA|)) (ccz + (|halfW * sinA| + |halfD * cosA|))
      _ _ _ _ qx qz hb1 hb2 hb3 hb4
      (by have := min_le_right sx ex; linarith)
      (by have := le_max_right sx ex; linarith)
      (by have := min_le_right sz ez; linarith)
      (by have := le_max_right sz ez; linarith)
  · cases hc

end WoV

namespace WoV

theorem findDeepest_single_skip (c : Collider) (x z pMinY pMaxY eps : ℝ)
    (hskip : pMaxY ≤ c.minY ∨ pMinY ≥ c.maxY - eps) :
    findDeepest [c] [0] x z pMinY pMaxY eps = none := by
  simp only [findDeepest, List.foldl_cons, List.foldl_nil, List.get?_cons_zero]
  rw [if_pos hskip]

theorem findDeepest_single_none (c : Collider) (x z pMinY pMaxY eps : ℝ)
    (htest : colliderTest c x z = none) :
    findDeepest [c] [0] x z pMinY pMaxY eps = none := by
  simp only [findDeepest, List.foldl_cons, List.foldl_nil, List.get?_cons_zero]
  by_cases hskip : pMaxY ≤ c.minY ∨ pMinY ≥ c.maxY - eps
  · rw [if_pos hskip]
  · rw [if_neg hskip, htest]

theorem findDeepest_single_hit (c : Collider) (x z pMinY pMaxY eps : ℝ) (h0 : Hit)
    (hpass : ¬ (pMaxY ≤ c.minY ∨ pMinY ≥ c.maxY - eps))
    (htest : colliderTest c x z = some h0) :
    findDeepest [c] [0] x z pMinY pMaxY eps
      = if h0.depth > 0 then some h0 else none := by
  simp only [findDeepest, List.foldl_cons, List.foldl_nil, List.get?_cons_zero]
  rw [if_neg hpass, htest]
  rfl

theorem slideLoop_succ (colls : List Collider) (cands : List ℕ)
    (startX startZ pMinY pMaxY eps : ℝ) (fuel : ℕ)
    (posX posZ prevNx prevNz : ℝ) (notFirst : Bool) :
    slideLoop colls cands startX startZ pMinY pMaxY eps (fuel + 1)
        posX posZ prevNx prevNz notFirst
      = match findDeepest colls cands posX posZ pMinY pMaxY eps with
        | none => some (posX, posZ)
        | some h =>
          if notFirst = true ∧ h.nx * prevNx + h.nz * prevNz < -0.5 then
            some (startX, startZ)
          else
            match h.depth with
            | ⊤ => none
            | (d : ℝ) =>
              slideLoop colls cands startX startZ pMinY pMaxY eps fuel
                (posX + h.nx * (d + PUSH_EPSILON)) (posZ + h.nz * (d + PUSH_EPSILON))
                h.nx h.nz true := rfl

theorem single_collider_assembly (c : Collider) (s : CollisionState)
    (hcolls : s.colliders = [c])
    (hgrid : ∀ k j, j ∈ s.spatialGrid k → j = 0)
    (hmem : ∀ ex ez h, colliderTest c ex ez = some h →
      ∀ sx sz, 0 ∈ queryGrid s.spatialGrid (min sx ex - PLAYER_RADIUS)
        (min sz ez - PLAYER_RADIUS) (max sx ex + PLAYER_RADIUS) (max sz ez + PLAYER_RADIUS))
    (hpush : ∀ x z h (d : ℝ), colliderTest c x z = some h → h.depth = ↑d →
      colliderTest c (x + h.nx * (d + PUSH_EPSILON)) (z + h.nz * (d + PUSH_EPSILON)) = none)
    (hcoe : ∀ x z h, colliderTest c x z = some h → ∃ dd : ℝ, h.depth = ↑dd)
    (startX startZ endX endZ playerY : ℝ) (grounded : Bool) :
    ∃ px pz,
      resolveMovement s startX startZ endX endZ playerY grounded = some (px, pz) ∧
      (¬ (playerY + PLAYER_HEIGHT ≤ c.minY ∨
            playerY ≥ c.maxY - (if grounded = true then (0.15 : ℝ) else 0)) →
        colliderTest c px pz = none ∨
          ∃ h, colliderTest c px pz = some h ∧ h.depth ≤ ↑PUSH_EPSILON) := by
  have hlen : s.colliders.length = 1 := by rw [hcolls]; rfl
  unfold resolveMovement
  rw [if_neg (by simp [hlen])]
  rcases hcand : queryGrid s.spatialGrid (min startX endX - PLAYER_RADIUS)
      (min startZ endZ - PLAYER_RADIUS) (max startX endX + PLAYER_RADIUS)
      (max startZ endZ + PLAYER_RADIUS) with _ | ⟨i, rest⟩
  · dsimp only
    rw [hcand]
    rw [if_pos (show ([] : List ℕ).length = 0 from rfl)]
    refine ⟨endX, endZ, rfl, ?_⟩
    intro _
    rcases htest : colliderTest c endX endZ with _ | h0
    · exact Or.inl rfl
    · have h0mem := hmem endX endZ h0 htest startX startZ
      rw [hcand] at h0mem
      cases h0mem
  · -- the only candidate index is 0
    have hi : i = 0 := by
      have : i ∈ queryGrid s.spatialGrid (min startX endX - PLAYER_RADIUS)
          (min startZ endZ - PLAYER_RADIUS) (max startX endX + PLAYER_RADIUS)
          (max startZ endZ + PLAYER_RADIUS) := by
        rw [hcand]
        exact List.mem_cons_self _ _
      obtain ⟨cx, _, cz, _, hmem'⟩ := mem_queryGrid.mp this
      exact hgrid _ i hmem'
    subst hi
    have hrest : rest = [] := by
      have hnd := nodup_queryGrid s.spatialGrid (min startX endX - PLAYER_RADIUS)
          (min startZ endZ - PLAYER_RADIUS) (max startX endX + PLAYER_RADIUS)
          (max startZ endZ + PLAYER_RADIUS)
      rw [hcand] at hnd
      rcases rest with _ | ⟨j, js⟩
      · rfl
      · exfalso
        have hj : j = 0 := by
          have : j ∈ queryGrid s.spatialGrid (min startX endX - PLAYER_RADIUS)
              (min startZ endZ - PLAYER_RADIUS) (max startX endX + PLAYER_RADIUS)
              (max startZ endZ + PLAYER_RADIUS) := by
            rw [hcand]
            exact List.mem_cons_of_mem _ (List.mem_cons_self _ _)
          obtain ⟨cx, _, cz, _, hmem'⟩ := mem_queryGrid.mp this
          exact hgrid _ j hmem'
        subst hj
        exact (List.nodup_cons.mp hnd).1 (List.mem_cons_self _ _)
    subst hrest
    dsimp only
    rw [hcand]
    rw [if_neg (by simp)]
    rw [hcolls]
    set eps := if grounded = true then (0.15 : ℝ) else 0 with heps
    by_cases hpass : playerY + PLAYER_HEIGHT ≤ c.minY ∨ playerY ≥ c.maxY - eps
    · refine ⟨endX, endZ, ?_, fun hn => absurd hpass hn⟩
      rw [show MAX_SLIDE_ITERATIONS = 2 + 1 from rfl, slideLoop_succ,
        findDeepest_single_skip c endX endZ playerY (playerY + PLAYER_HEIGHT) eps hpass]
    · rcases htest : colliderTest c endX endZ with _ | h0
      · refine ⟨endX, endZ, ?_, fun _ => Or.inl htest⟩
        rw [show MAX_SLIDE_ITERATIONS = 2 + 1 from rfl, slideLoop_succ,
          findDeepest_single_none c endX endZ playerY (playerY + PLAYER_HEIGHT) eps htest]
      · by_cases hdp : h0.depth > 0
        · obtain ⟨d0, hd0⟩ := hcoe endX endZ h0 htest
          have hclear := hpush endX endZ h0 d0 htest hd0
          refine ⟨endX + h0.nx * (d0 + PUSH_EPSILON), endZ + h0.nz * (d0 + PUSH_EPSILON),
            ?_, fun _ => Or.inl hclear⟩
          rw [show MAX_SLIDE_ITERATIONS = 2 + 1 from rfl, slideLoop_succ,
            findDeepest_single_hit c endX endZ playerY (playerY + PLAYER_HEIGHT) eps h0
              hpass htest, if_pos hdp]
          dsimp only
          rw [if_neg (by simp), hd0]
          show slideLoop [c] [0] startX startZ playerY (playerY + PLAYER_HEIGHT) eps 2
            (endX + h0.nx * (d0 + PUSH_EPSILON)) (endZ + h0.nz * (d0 + PUSH_EPSILON))
            h0.nx h0.nz true
            = some (endX + h0.nx * (d0 + PUSH_EPSILON), endZ + h0.nz * (d0 + PUSH_EPSILON))
          rw [show (2 : ℕ) = 1 + 1 from rfl, slideLoop_succ,
            findDeepest_single_none c _ _ playerY (playerY + PLAYER_HEIGHT) eps hclear]
        · refine ⟨endX, endZ, ?_, ?_⟩
          · rw [show MAX_SLIDE_ITERATIONS = 2 + 1 from rfl, slideLoop_succ,
              findDeepest_single_hit c endX endZ playerY (playerY + PLAYER_HEIGHT) eps h0
                hpass htest, if_neg hdp]
          · intro _
            refine Or.inr ⟨h0, htest, ?_⟩
            have h0le : h0.depth ≤ 0 := not_lt.mp hdp
            have : (0 : WithTop ℝ) ≤ ↑PUSH_EPSILON := by
              have : (0 : ℝ) ≤ PUSH_EPSILON := by norm_num [PUSH_EPSILON]
              exact_mod_cast this
            exact le_trans h0le this

/-- C1 amended: with a single registered collider that is a well-formed convex
shape (AABB with ordered bounds, cylinder with non-negative radius, or OBB with
non-negative half-extents and unit rotation), resolveMovement always returns a
position, and whenever the collider passes the vertical-overlap filter,
re-running its narrow-phase test at that position yields no collision or a
penetration depth at most PUSH_EPSILON. -/
theorem resolveMovement_single_convex (c : Collider) (hc : convexWellFormed c)
    (startX startZ endX endZ playerY : ℝ) (grounded : Bool) :
    ∃ px pz,
      resolveMovement (registerOne c) startX startZ endX endZ playerY grounded
        = some (px, pz) ∧
      (¬ (playerY + PLAYER_HEIGHT ≤ c.minY ∨
            playerY ≥ c.maxY - (if grounded = true then (0.15 : ℝ) else 0)) →
        colliderTest c px pz = none ∨
          ∃ h, colliderTest c px pz = some h ∧ h.depth ≤ ↑PUSH_EPSILON) := by
  apply single_collider_assembly c (registerOne c)
  · rcases c with ⟨minX, minZ, maxX, maxZ, minY, maxY⟩ | ⟨cx, cz, radius, minY, maxY⟩ |
      ⟨cx, cz, halfW, halfD, cosA, sinA, minY, maxY⟩ | ⟨tris, minY, maxY, t3⟩
    · rfl
    · rfl
    · rfl
    · cases hc
  · intro k j hmem
    rcases c with ⟨minX, minZ, maxX, maxZ, minY, maxY⟩ | ⟨cx, cz, radius, minY, maxY⟩ |
      ⟨cx, cz, halfW, halfD, cosA, sinA, minY, maxY⟩ | ⟨tris, minY, maxY, t3⟩
    · rcases mem_insertIntoGrid_elim _ _ _ _ _ _ _ _ hmem with hfalse | h0
      · cases hfalse
      · exact h0
    · rcases mem_insertIntoGrid_elim _ _ _ _ _ _ _ _ hmem with hfalse | h0
      · cases hfalse
      · exact h0
    · rcases mem_insertIntoGrid_elim _ _ _ _ _ _ _ _ hmem with hfalse | h0
      · cases hfalse
      · exact h0
    · cases hc
  · intro ex ez h hh sx sz
    exact zero_mem_candidates c hc sx sz ex ez h hh
  · intro x z h d hh hd
    exact colliderTest_push_clears c hc x z h d hh hd
  · intro x z h hh
    exact colliderTest_depth_coe c hc x z h hh

end WoV

namespace WoV

theorem sqrt_eval {a b : ℝ} (hb : 0 ≤ b) (h : b * b = a) : Real.sqrt a = b := by
  rw [← h, Real.sqrt_mul_self hb]

theorem tct_T1_start : testCircleVsTriangle 8 8 PLAYER_RADIUS 8.2 6 8.2 10 10.2 8
    = some ⟨-1, 0, ↑(0.2 : ℝ)⟩ := by
  have h25 : Real.sqrt 25 = 5 := sqrt_eval (by norm_num) (by norm_num)
  norm_num [testCircleVsTriangle, edgeClosest, PLAYER_RADIUS, h25]

theorem tct_T2_start : testCircleVsTriangle 8 8 PLAYER_RADIUS 7.8 6 7.8 10 5.8 8
    = some ⟨1, 0, ↑(0.2 : ℝ)⟩ := by
  have h25 : Real.sqrt 25 = 5 := sqrt_eval (by norm_num) (by norm_num)
  norm_num [testCircleVsTriangle, edgeClosest, PLAYER_RADIUS, h25]

theorem tct_T1_push : testCircleVsTriangle 7.799 8 PLAYER_RADIUS 8.2 6 8.2 10 10.2 8
    = none := by
  norm_num [testCircleVsTriangle, edgeClosest, PLAYER_RADIUS]

theorem tct_T2_push : testCircleVsTriangle 7.799 8 PLAYER_RADIUS 7.8 6 7.8 10 5.8 8
    = some ⟨1, 0, ↑(0.401 : ℝ)⟩ := by
  have h6 : Real.sqrt 1000000 = 1000 := sqrt_eval (by norm_num) (by norm_num)
  norm_num [testCircleVsTriangle, edgeClosest, PLAYER_RADIUS, h6]

end WoV

namespace WoV

theorem noskip (t : ℕ) : ¬ walkableSkip none t := by simp [walkableSkip]

theorem tvt_start :
    testCylinderVsTrimesh 8 8 PLAYER_RADIUS [⟨8.2,6,8.2,10,10.2,8⟩, ⟨7.8,6,7.8,10,5.8,8⟩] none
      = some ⟨-1, 0, ↑(0.2 : ℝ)⟩ := by
  show (List.foldl _ none
      (List.enum [(⟨8.2,6,8.2,10,10.2,8⟩ : Tri2), ⟨7.8,6,7.8,10,5.8,8⟩])) = _
  rw [show List.enum [(⟨8.2,6,8.2,10,10.2,8⟩ : Tri2), ⟨7.8,6,7.8,10,5.8,8⟩]
      = [(0, ⟨8.2,6,8.2,10,10.2,8⟩), (1, ⟨7.8,6,7.8,10,5.8,8⟩)] from rfl,
    List.foldl_cons, List.foldl_cons, List.foldl_nil]
  dsimp only
  rw [if_neg (noskip 0), if_neg (noskip 1), tct_T1_start]
  dsimp only [keepDeeper]
  rw [if_pos (by exact_mod_cast (by norm_num : (0:ℝ) < 0.2))]
  rw [tct_T2_start]
  dsimp only [keepDeeper]
  rw [if_neg (lt_irrefl _)]

theorem tvt_push :
    testCylinderVsTrimesh 7.799 8 PLAYER_RADIUS [⟨8.2,6,8.2,10,10.2,8⟩, ⟨7.8,6,7.8,10,5.8,8⟩] none
      = some ⟨1, 0, ↑(0.401 : ℝ)⟩ := by
  show (List.foldl _ none
      (List.enum [(⟨8.2,6,8.2,10,10.2,8⟩ : Tri2), ⟨7.8,6,7.8,10,5.8,8⟩])) = _
  rw [show List.enum [(⟨8.2,6,8.2,10,10.2,8⟩ : Tri2), ⟨7.8,6,7.8,10,5.8,8⟩]
      = [(0, ⟨8.2,6,8.2,10,10.2,8⟩), (1, ⟨7.8,6,7.8,10,5.8,8⟩)] from rfl,
    List.foldl_cons, List.foldl_cons, List.foldl_nil]
  dsimp only
  rw [if_neg (noskip 0), if_neg (noskip 1), tct_T1_push]
  dsimp only
  rw [tct_T2_push]
  dsimp only [keepDeeper]
  rw [if_pos (by exact_mod_cast (by norm_num : (0:ℝ) < 0.401))]

end WoV

namespace WoV

theorem cellRange_zero {lo hi : ℝ} (h1 : ⌊lo / CELL_SIZE⌋ = 0) (h2 : ⌊hi / CELL_SIZE⌋ = 0) :
    cellRange lo hi = [0] := by
  unfold cellRange
  rw [h1, h2]
  rfl

theorem floor16_zero {r : ℝ} (h0 : 0 ≤ r) (h1 : r < 16) : ⌊r / CELL_SIZE⌋ = 0 := by
  rw [Int.floor_eq_zero_iff]
  constructor
  · exact div_nonneg h0 (by norm_num [CELL_SIZE])
  · rw [div_lt_one (by norm_num [CELL_SIZE])]
    norm_num [CELL_SIZE]
    linarith

theorem trap_grid_cell :
    (addTrimeshCollider CollisionState.empty
        [⟨8.2,6,8.2,10,10.2,8⟩, ⟨7.8,6,7.8,10,5.8,8⟩] 0 2 none).spatialGrid (cellKey 0 0)
      = [0] := by
  unfold addTrimeshCollider
  dsimp only
  simp only [List.flatMap_cons, List.flatMap_nil, List.cons_append, List.nil_append,
    List.append_nil]
  rw [show List.foldl min (8.2:ℝ) [8.2, 8.2, 10.2, 7.8, 7.8, 5.8] = 5.8 by
      simp only [List.foldl_cons, List.foldl_nil]; norm_num,
    show List.foldl max (8.2:ℝ) [8.2, 8.2, 10.2, 7.8, 7.8, 5.8] = 10.2 by
      simp only [List.foldl_cons, List.foldl_nil]; norm_num,
    show List.foldl min (6:ℝ) [6, 10, 8, 6, 10, 8] = 6 by
      simp only [List.foldl_cons, List.foldl_nil]; norm_num,
    show List.foldl max (6:ℝ) [6, 10, 8, 6, 10, 8] = 10 by
      simp only [List.foldl_cons, List.foldl_nil]; norm_num]
  unfold insertIntoGrid
  rw [cellRange_zero (floor16_zero (by norm_num) (by norm_num))
        (floor16_zero (by norm_num) (by norm_num)),
      cellRange_zero (floor16_zero (by norm_num) (by norm_num))
        (floor16_zero (by norm_num) (by norm_num))]
  simp only [List.foldl_cons, List.foldl_nil]
  rw [Function.update_same]
  rfl

theorem trap_query :
    queryGrid (addTrimeshCollider CollisionState.empty
        [⟨8.2,6,8.2,10,10.2,8⟩, ⟨7.8,6,7.8,10,5.8,8⟩] 0 2 none).spatialGrid
      (min 8 8 - PLAYER_RADIUS) (min 8 8 - PLAYER_RADIUS)
      (max 8 8 + PLAYER_RADIUS) (max 8 8 + PLAYER_RADIUS) = [0] := by
  rw [show min (8:ℝ) 8 - PLAYER_RADIUS = 7.6 by norm_num [PLAYER_RADIUS],
    show max (8:ℝ) 8 + PLAYER_RADIUS = 8.4 by norm_num [PLAYER_RADIUS]]
  unfold queryGrid
  rw [cellRange_zero (floor16_zero (by norm_num) (by norm_num))
        (floor16_zero (by norm_num) (by norm_num))]
  simp only [List.foldl_cons, List.foldl_nil]
  rw [trap_grid_cell]
  rfl

end WoV

namespace WoV



theorem trap_colliderTest_start :
    colliderTest (Collider.trimesh [⟨8.2,6,8.2,10,10.2,8⟩, ⟨7.8,6,7.8,10,5.8,8⟩] 0 2 none) 8 8
      = some ⟨-1, 0, ↑(0.2 : ℝ)⟩ := tvt_start

theorem trap_colliderTest_push :
    colliderTest (Collider.trimesh [⟨8.2,6,8.2,10,10.2,8⟩, ⟨7.8,6,7.8,10,5.8,8⟩] 0 2 none)
      7.799 8 = some ⟨1, 0, ↑(0.401 : ℝ)⟩ := tvt_push

theorem trap_resolveMovement :
    resolveMovement (addTrimeshCollider CollisionState.empty
        [⟨8.2,6,8.2,10,10.2,8⟩, ⟨7.8,6,7.8,10,5.8,8⟩] 0 2 none) 8 8 8 8 0 true
      = some (8, 8) := by
  set c : Collider := Collider.trimesh [⟨8.2,6,8.2,10,10.2,8⟩, ⟨7.8,6,7.8,10,5.8,8⟩] 0 2 none
    with hc
  have hpass : ¬ ((0:ℝ) + PLAYER_HEIGHT ≤ c.minY ∨ (0:ℝ) ≥ c.maxY - 0.15) := by
    rw [hc]
    push_neg
    constructor
    · norm_num [PLAYER_HEIGHT, Collider.minY]
    · norm_num [Collider.maxY]
  unfold resolveMovement
  rw [if_neg (show ¬ (addTrimeshCollider CollisionState.empty
      [⟨8.2,6,8.2,10,10.2,8⟩, ⟨7.8,6,7.8,10,5.8,8⟩] 0 2 none).colliders.length = 0 from by
    rw [show (addTrimeshCollider CollisionState.empty
      [⟨8.2,6,8.2,10,10.2,8⟩, ⟨7.8,6,7.8,10,5.8,8⟩] 0 2 none).colliders.length = 1 from rfl]
    norm_num)]
  dsimp only
  rw [trap_query]
  rw [if_neg (show ¬ ([0] : List ℕ).length = 0 from by norm_num)]
  rw [show (addTrimeshCollider CollisionState.empty
      [⟨8.2,6,8.2,10,10.2,8⟩, ⟨7.8,6,7.8,10,5.8,8⟩] 0 2 none).colliders = [c] from rfl]
  rw [show (if (true : Bool) = true then (0.15:ℝ) else 0) = 0.15 from rfl]
  rw [show MAX_SLIDE_ITERATIONS = 2 + 1 from rfl, slideLoop_succ,
    findDeepest_single_hit c 8 8 0 (0 + PLAYER_HEIGHT) 0.15 ⟨-1, 0, ↑(0.2:ℝ)⟩ hpass
      trap_colliderTest_start]
  rw [if_pos (show ((⟨-1, 0, ↑(0.2:ℝ)⟩ : Hit).depth > 0) from by
    dsimp only; exact_mod_cast (by norm_num : (0:ℝ) < 0.2))]
  dsimp only
  rw [if_neg (by simp)]
  show slideLoop [c] [0] 8 8 0 (0 + PLAYER_HEIGHT) 0.15 2
      (8 + -1 * (0.2 + PUSH_EPSILON)) (8 + 0 * (0.2 + PUSH_EPSILON)) (-1) 0 true = some (8, 8)
  rw [show (8:ℝ) + -1 * (0.2 + PUSH_EPSILON) = 7.799 by norm_num [PUSH_EPSILON],
    show (8:ℝ) + 0 * (0.2 + PUSH_EPSILON) = 8 by norm_num]
  rw [show (2:ℕ) = 1 + 1 from rfl, slideLoop_succ,
    findDeepest_single_hit c 7.799 8 0 (0 + PLAYER_HEIGHT) 0.15 ⟨1, 0, ↑(0.401:ℝ)⟩ hpass
      trap_colliderTest_push]
  rw [if_pos (show ((⟨1, 0, ↑(0.401:ℝ)⟩ : Hit).depth > 0) from by
    dsimp only; exact_mod_cast (by norm_num : (0:ℝ) < 0.401))]
  dsimp only
  rw [if_pos ⟨rfl, by norm_num⟩]

end WoV

namespace WoV

theorem trap_pass :
    ¬ ((0:ℝ) + PLAYER_HEIGHT ≤ (Collider.trimesh
          [⟨8.2,6,8.2,10,10.2,8⟩, ⟨7.8,6,7.8,10,5.8,8⟩] 0 2 none).minY ∨
        (0:ℝ) ≥ (Collider.trimesh
          [⟨8.2,6,8.2,10,10.2,8⟩, ⟨7.8,6,7.8,10,5.8,8⟩] 0 2 none).maxY - 0.15) := by
  push_neg
  constructor
  · norm_num [PLAYER_HEIGHT, Collider.minY]
  · norm_num [Collider.maxY]

theorem trap_findDeepest_push :
    findDeepest [Collider.trimesh [⟨8.2,6,8.2,10,10.2,8⟩, ⟨7.8,6,7.8,10,5.8,8⟩] 0 2 none]
        [0] 7.799 8 0 (0 + PLAYER_HEIGHT) 0.15 = some ⟨1, 0, ↑(0.401:ℝ)⟩ := by
  rw [findDeepest_single_hit _ 7.799 8 0 (0 + PLAYER_HEIGHT) 0.15 ⟨1, 0, ↑(0.401:ℝ)⟩
    trap_pass trap_colliderTest_push]
  rw [if_pos (show ((⟨1, 0, ↑(0.401:ℝ)⟩ : Hit).depth > 0) from by
    dsimp only; exact_mod_cast (by norm_num : (0:ℝ) < 0.401))]

theorem tct_wall : testCircleVsTriangle 0.2 0 PLAYER_RADIUS 0 (-1) 0 1 0 0
    = some ⟨1, 0, ↑(0.2 : ℝ)⟩ := by
  have h25 : Real.sqrt 25 = 5 := sqrt_eval (by norm_num) (by norm_num)
  norm_num [testCircleVsTriangle, edgeClosest, PLAYER_RADIUS, h25]

theorem wall_not_walkable :
    ¬ walkableSkip (some [(⟨0,0,-1,0,0,1,0,2,0⟩ : Tri3)]) 0 := by
  show ¬ triWalkable ⟨0,0,-1,0,0,1,0,2,0⟩
  rintro ⟨hlen, hy⟩
  norm_num [triNormalYSq, triNormalLenSq, MIN_WALKABLE_NORMAL_Y_SQ,
    MIN_WALKABLE_NORMAL_Y] at hy

theorem wall_tvt :
    testCylinderVsTrimesh 0.2 0 PLAYER_RADIUS [⟨0,-1,0,1,0,0⟩]
        (some [(⟨0,0,-1,0,0,1,0,2,0⟩ : Tri3)]) = some ⟨1, 0, ↑(0.2 : ℝ)⟩ := by
  show (List.foldl _ none (List.enum [(⟨0,-1,0,1,0,0⟩ : Tri2)])) = _
  rw [show List.enum [(⟨0,-1,0,1,0,0⟩ : Tri2)] = [(0, ⟨0,-1,0,1,0,0⟩)] from rfl,
    List.foldl_cons, List.foldl_nil]
  dsimp only
  rw [if_neg wall_not_walkable, tct_wall]
  dsimp only [keepDeeper]
  rw [if_pos (show ((0 : WithTop ℝ) < ↑(0.2:ℝ)) from by
    exact_mod_cast (by norm_num : (0:ℝ) < 0.2))]

theorem tct_point : testCircleVsTriangle 8 8 PLAYER_RADIUS 8 8 8 8 8 8
    = some ⟨0, 0, ⊤⟩ := by
  norm_num [testCircleVsTriangle, edgeClosest, PLAYER_RADIUS]

theorem point_grid_cell :
    (addTrimeshCollider CollisionState.empty [⟨8,8,8,8,8,8⟩] 0 2 none).spatialGrid
      (cellKey 0 0) = [0] := by
  unfold addTrimeshCollider
  dsimp only
  simp only [List.flatMap_cons, List.flatMap_nil, List.cons_append, List.nil_append,
    List.append_nil]
  rw [show List.foldl min (8:ℝ) [8, 8, 8] = 8 by
      simp only [List.foldl_cons, List.foldl_nil]; norm_num,
    show List.foldl max (8:ℝ) [8, 8, 8] = 8 by
      simp only [List.foldl_cons, List.foldl_nil]; norm_num]
  unfold insertIntoGrid
  rw [cellRange_zero (floor16_zero (by norm_num) (by norm_num))
        (floor16_zero (by norm_num) (by norm_num))]
  simp only [List.foldl_cons, List.foldl_nil]
  rw [Function.update_same]
  rfl

theorem point_query :
    queryGrid (addTrimeshCollider CollisionState.empty [⟨8,8,8,8,8,8⟩] 0 2 none).spatialGrid
      (min 8 8 - PLAYER_RADIUS) (min 8 8 - PLAYER_RADIUS)
      (max 8 8 + PLAYER_RADIUS) (max 8 8 + PLAYER_RADIUS) = [0] := by
  rw [show min (8:ℝ) 8 - PLAYER_RADIUS = 7.6 by norm_num [PLAYER_RADIUS],
    show max (8:ℝ) 8 + PLAYER_RADIUS = 8.4 by norm_num [PLAYER_RADIUS]]
  unfold queryGrid
  rw [cellRange_zero (floor16_zero (by norm_num) (by norm_num))
        (floor16_zero (by norm_num) (by norm_num))]
  simp only [List.foldl_cons, List.foldl_nil]
  rw [point_grid_cell]
  rfl

theorem point_tvt :
    testCylinderVsTrimesh 8 8 PLAYER_RADIUS [⟨8,8,8,8,8,8⟩] none = some ⟨0, 0, ⊤⟩ := by
  show (List.foldl _ none (List.enum [(⟨8,8,8,8,8,8⟩ : Tri2)])) = _
  rw [show List.enum [(⟨8,8,8,8,8,8⟩ : Tri2)] = [(0, ⟨8,8,8,8,8,8⟩)] from rfl,
    List.foldl_cons, List.foldl_nil]
  dsimp only
  rw [if_neg (noskip 0), tct_point]
  dsimp only [keepDeeper]
  rw [if_pos (show ((0 : WithTop ℝ) < ⊤) from WithTop.coe_lt_top 0)]

theorem point_pass :
    ¬ ((0:ℝ) + PLAYER_HEIGHT ≤ (Collider.trimesh [⟨8,8,8,8,8,8⟩] 0 2 none).minY ∨
        (0:ℝ) ≥ (Collider.trimesh [⟨8,8,8,8,8,8⟩] 0 2 none).maxY - 0.15) := by
  push_neg
  constructor
  · norm_num [PLAYER_HEIGHT, Collider.minY]
  · norm_num [Collider.maxY]

theorem point_resolveMovement_none :
    resolveMovement (addTrimeshCollider CollisionState.empty [⟨8,8,8,8,8,8⟩] 0 2 none)
      8 8 8 8 0 true = none := by
  unfold resolveMovement
  rw [if_neg (show ¬ (addTrimeshCollider CollisionState.empty
      [⟨8,8,8,8,8,8⟩] 0 2 none).colliders.length = 0 from by
    rw [show (addTrimeshCollider CollisionState.empty
      [⟨8,8,8,8,8,8⟩] 0 2 none).colliders.length = 1 from rfl]
    norm_num)]
  dsimp only
  rw [point_query]
  rw [if_neg (show ¬ ([0] : List ℕ).length = 0 from by norm_num)]
  rw [show (addTrimeshCollider CollisionState.empty
      [⟨8,8,8,8,8,8⟩] 0 2 none).colliders = [Collider.trimesh [⟨8,8,8,8,8,8⟩] 0 2 none]
    from rfl]
  rw [show (if (true : Bool) = true then (0.15:ℝ) else 0) = 0.15 from rfl]
  rw [show MAX_SLIDE_ITERATIONS = 2 + 1 from rfl, slideLoop_succ,
    findDeepest_single_hit _ 8 8 0 (0 + PLAYER_HEIGHT) 0.15 ⟨0, 0, ⊤⟩ point_pass point_tvt]
  rw [if_pos (show ((⟨0, 0, ⊤⟩ : Hit).depth > 0) from WithTop.coe_lt_top 0)]
  dsimp only
  rw [if_neg (by simp)]

end WoV

namespace WoV

/-- C1 counterexample: with a single registered trimesh collider (two facing
steep wall triangles 0.4 apart), resolveMovement started and ended at the
point between them returns that point via the concave-trap branch, yet the
collider's narrow-phase test at the returned position reports penetration
depth 0.2, far deeper than PUSH_EPSILON = 0.001. -/
theorem single_collider_penetration_persists :
    resolveMovement (addTrimeshCollider CollisionState.empty
        [⟨8.2,6,8.2,10,10.2,8⟩, ⟨7.8,6,7.8,10,5.8,8⟩] 0 2 none) 8 8 8 8 0 true
      = some (8, 8) ∧
    colliderTest (Collider.trimesh [⟨8.2,6,8.2,10,10.2,8⟩, ⟨7.8,6,7.8,10,5.8,8⟩] 0 2 none)
        8 8 = some ⟨-1, 0, ↑(0.2 : ℝ)⟩ ∧
    (↑PUSH_EPSILON : WithTop ℝ) < ↑(0.2 : ℝ) :=
  ⟨trap_resolveMovement, trap_colliderTest_start, by
    exact_mod_cast (by norm_num [PUSH_EPSILON] : PUSH_EPSILON < (0.2 : ℝ))⟩

/-- C1 witness: the amended single-collider guarantee instantiated at a
concrete well-formed AABB and a concrete diagonal move into it. -/
theorem resolveMovement_single_convex_witness :
    ∃ px pz,
      resolveMovement (registerOne (Collider.aabb 10 10 12 12 0 2)) 9 11 11 11 0 true
        = some (px, pz) ∧
      (¬ ((0:ℝ) + PLAYER_HEIGHT ≤ (Collider.aabb 10 10 12 12 0 2).minY ∨
            (0:ℝ) ≥ (Collider.aabb 10 10 12 12 0 2).maxY
              - (if (true : Bool) = true then (0.15 : ℝ) else 0)) →
        colliderTest (Collider.aabb 10 10 12 12 0 2) px pz = none ∨
          ∃ h, colliderTest (Collider.aabb 10 10 12 12 0 2) px pz = some h ∧
            h.depth ≤ ↑PUSH_EPSILON) :=
  resolveMovement_single_convex (Collider.aabb 10 10 12 12 0 2)
    ⟨by norm_num, by norm_num⟩ 9 11 11 11 0 true

/-- C2 witness: the concave-trap branch instantiated at the two facing wall
triangles — one sliding iteration pushed the agent from (8,8) to (7.799,8)
with normal (-1,0); the next iteration's deepest normal (1,0) has dot
product -1 < -0.5, and the loop returns the start (8,8) whether or not the
start is blocked. -/
theorem concaveTrap_returns_start_witness :
    (startBlocked [Collider.trimesh [⟨8.2,6,8.2,10,10.2,8⟩, ⟨7.8,6,7.8,10,5.8,8⟩] 0 2 none]
        [0] 8 8 0 (0 + PLAYER_HEIGHT) 0.15 →
      slideLoop [Collider.trimesh [⟨8.2,6,8.2,10,10.2,8⟩, ⟨7.8,6,7.8,10,5.8,8⟩] 0 2 none]
          [0] 8 8 0 (0 + PLAYER_HEIGHT) 0.15 (0 + 1) 7.799 8 (-1) 0 true = some (8, 8)) ∧
    (¬ startBlocked [Collider.trimesh [⟨8.2,6,8.2,10,10.2,8⟩, ⟨7.8,6,7.8,10,5.8,8⟩] 0 2 none]
        [0] 8 8 0 (0 + PLAYER_HEIGHT) 0.15 →
      slideLoop [Collider.trimesh [⟨8.2,6,8.2,10,10.2,8⟩, ⟨7.8,6,7.8,10,5.8,8⟩] 0 2 none]
          [0] 8 8 0 (0 + PLAYER_HEIGHT) 0.15 (0 + 1) 7.799 8 (-1) 0 true = some (8, 8)) :=
  concaveTrap_returns_start
    [Collider.trimesh [⟨8.2,6,8.2,10,10.2,8⟩, ⟨7.8,6,7.8,10,5.8,8⟩] 0 2 none]
    [0] 8 8 0 (0 + PLAYER_HEIGHT) 0.15 0 7.799 8 (-1) 0 ⟨1, 0, ↑(0.401:ℝ)⟩
    trap_findDeepest_push (by dsimp only; norm_num)

/-- C3 witness: the vertical exemption instantiated at an AABB spanning
heights [5, 6) against an agent at feet height 0 — removing it from the
candidate list leaves the sliding loop unchanged. -/
theorem verticalFilter_exempts_witness :
    slideLoop [Collider.aabb 0 0 1 1 5 6] ([] ++ 0 :: []) 0 0 0 (0 + PLAYER_HEIGHT)
        (if (true : Bool) = true then (0.15 : ℝ) else 0) 1 0 0 0 0 false
      = slideLoop [Collider.aabb 0 0 1 1 5 6] ([] ++ []) 0 0 0 (0 + PLAYER_HEIGHT)
        (if (true : Bool) = true then (0.15 : ℝ) else 0) 1 0 0 0 0 false :=
  (verticalFilter_exempts [Collider.aabb 0 0 1 1 5 6] 0 (Collider.aabb 0 0 1 1 5 6) rfl
      [] [] 0 true 0 0).2
    (Or.inl (by norm_num [PLAYER_HEIGHT, Collider.minY])) 1 0 0 0 0 false

/-- C8 witness: the walkable-skip guarantee instantiated at a single vertical
wall triangle carrying 3D data — the hit it produces comes from a triangle
whose unit-normal Y-squared is 0, below the walkable threshold. -/
theorem trimesh_walkable_never_contributes_witness :
    ∃ t tri, ([⟨0,-1,0,1,0,0⟩] : List Tri2).get? t = some tri ∧
      (∀ tri3, ([(⟨0,0,-1,0,0,1,0,2,0⟩ : Tri3)] : List Tri3).get? t = some tri3 →
        triNormalLenSq tri3 > 1e-10 →
        triNormalYSq tri3 / triNormalLenSq tri3 < MIN_WALKABLE_NORMAL_Y_SQ) ∧
      testCircleVsTriangle 0.2 0 PLAYER_RADIUS tri.ax tri.az tri.bx tri.bz tri.cx tri.cz
        = some ⟨1, 0, ↑(0.2 : ℝ)⟩ :=
  trimesh_walkable_never_contributes 0.2 0 PLAYER_RADIUS [⟨0,-1,0,1,0,0⟩]
    [⟨0,0,-1,0,0,1,0,2,0⟩] ⟨1, 0, ↑(0.2 : ℝ)⟩ wall_tvt

/-- C6: the spec requires every NaN/Infinity-capable computation to branch to
a safe fallback, but a fully degenerate (point) triangle defeats the edge
epsilon guards: testCircleVsTriangle reports an infinite depth, and
resolveMovement then multiplies the zero normal by that infinite depth —
0 * Infinity = NaN — so the resolved position is NaN (modelled as none). -/
theorem degenerate_triangle_infinite_depth :
    testCircleVsTriangle 8 8 PLAYER_RADIUS 8 8 8 8 8 8 = some ⟨0, 0, ⊤⟩ ∧
    resolveMovement (addTrimeshCollider CollisionState.empty [⟨8,8,8,8,8,8⟩] 0 2 none)
      8 8 8 8 0 true = none :=
  ⟨tct_point, point_resolveMovement_none⟩

end WoV
